import Mathlib

/-!
# D2Q9 lattice Boltzmann solver (`src/main.cpp`)

A shallow embedding of the numerical core of the program: the constant
velocity-set tables, the `Node` record, the global `grid`, `init()` and
`step()`.

Modelling conventions.

* `double` is modelled by the exact rationals `ℚ`; every statement below is a
  statement in exact arithmetic.
* The global `std::vector<Node> grid(WIDTH * HEIGHT)` is a total store
  `Nat → Node` addressed by the flattened index `y * WIDTH + x`; only the
  indices below `WIDTH * HEIGHT` belong to the vector.
* A `for` loop is a left fold over the list of values of its loop variable, in
  loop order, threading the store through the iterations.
-/

namespace LBM

/-! ## Constants and the velocity-set tables (lines 8-25) -/

/-- Domain width, `const int WIDTH = 400`. -/
abbrev WIDTH : Nat := 400

/-- Domain height, `const int HEIGHT = 150`. -/
abbrev HEIGHT : Nat := 150

/-- Relaxation time, `const double TAU = 1.0`. -/
def TAU : ℚ := 1

/-- The values `0, 1, ..., Q-1` of a loop `for (int i = 0; i < Q; ++i)`, `Q = 9`. -/
def dirs : List (Fin 9) := [0, 1, 2, 3, 4, 5, 6, 7, 8]

/-- D2Q9 weights `w[Q]`. -/
def w : Fin 9 → ℚ := fun i =>
  [4 / 9, 1 / 9, 1 / 9, 1 / 9, 1 / 9, 1 / 36, 1 / 36, 1 / 36, 1 / 36].get i

/-- Direction vectors, x component `cx[Q]`.
Indices: 0:C, 1:E, 2:N, 3:W, 4:S, 5:NE, 6:NW, 7:SW, 8:SE. -/
def cx : Fin 9 → Int := fun i => [0, 1, 0, -1, 0, 1, -1, -1, 1].get i

/-- Direction vectors, y component `cy[Q]`. -/
def cy : Fin 9 → Int := fun i => [0, 0, 1, 0, -1, 1, 1, -1, -1].get i

/-- Table of opposite directions `opposite[Q]`. -/
def opposite : Fin 9 → Fin 9 := fun i => [0, 3, 4, 1, 2, 7, 8, 5, 6].get i

/-! ## Data model (lines 27-44) -/

/-- The record `struct Node`. -/
@[ext]
structure Node where
  /-- current distribution function `f[Q]` -/
  f : Fin 9 → ℚ
  /-- distribution function after streaming `f_new[Q]` -/
  f_new : Fin 9 → ℚ
  /-- density -/
  rho : ℚ
  /-- velocity, x component -/
  ux : ℚ
  /-- velocity, y component -/
  uy : ℚ
  /-- whether the node is a wall -/
  isWall : Bool

/-- The global `grid`, addressed by flattened index. -/
abbrev Lattice := Nat → Node

/-- The flattened index `y * WIDTH + x` computed by `getNode`. -/
def idx (x y : Int) : Nat := (y * (WIDTH : Int) + x).toNat

/-- Read access `getNode(x, y)`. -/
def getNode (g : Lattice) (x y : Int) : Node := g (idx x y)

/-- The assignment `grid[k].f[i] = v`. -/
def setF (g : Lattice) (k : Nat) (i : Fin 9) (v : ℚ) : Lattice :=
  Function.update g k { g k with f := Function.update (g k).f i v }

/-- The assignment `grid[k].f_new[i] = v`. -/
def setFNew (g : Lattice) (k : Nat) (i : Fin 9) (v : ℚ) : Lattice :=
  Function.update g k { g k with f_new := Function.update (g k).f_new i v }

/-! ## `init()` (lines 47-73) -/

/-- Body of the double loop of `init()` for the node `n = getNode(x, y)`. The
comparisons `y < HEIGHT * 0.4` and `y > HEIGHT * 0.6` are taken in exact
arithmetic; in `double` the two products are `60.0` and `90.0`, so both tests
agree with the exact ones for every integer `y`. -/
def initNode (x y : Nat) (n : Node) : Node :=
  let n := { n with isWall := false }
  let n :=
    if x = WIDTH / 2 then
      if (y : ℚ) < (HEIGHT : ℚ) * 0.4 ∨ (y : ℚ) > (HEIGHT : ℚ) * 0.6 then
        { n with isWall := true }
      else n
    else n
  let n := if y = 0 ∨ y = HEIGHT - 1 then { n with isWall := true } else n
  let n := if x < WIDTH / 2 then { n with rho := 1.00 } else { n with rho := 0.98 }
  let n := { n with ux := 0.0 }
  let n := { n with uy := 0.0 }
  dirs.foldl (fun n i => { n with f := Function.update n.f i (w i * n.rho) }) n

/-- The inner loop of `init()` over `x` for a fixed row `y`. -/
def initRow (y : Nat) (g : Lattice) : Lattice :=
  (List.range WIDTH).foldl
    (fun (g : Lattice) (x : Nat) => Function.update g (idx x y) (initNode x y (getNode g x y))) g

/-- The function `init()`. -/
def init (g : Lattice) : Lattice :=
  (List.range HEIGHT).foldl (fun g y => initRow y g) g

/-! ## `step()` (lines 76-149) -/

/-- Macroscopic recovery, lines 83-97: the three running sums and the
assignment of `rho`, `ux`, `uy`. -/
def recover (n : Node) : Node :=
  let s : ℚ × ℚ × ℚ :=
    dirs.foldl
      (fun s i => (s.1 + n.f i, s.2.1 + n.f i * (cx i : ℚ), s.2.2 + n.f i * (cy i : ℚ)))
      (0, 0, 0)
  let n := { n with rho := s.1 }
  if n.rho > 0 then
    let n := { n with ux := s.2.1 / n.rho }
    { n with uy := s.2.2 / n.rho }
  else
    { n with ux := 0, uy := 0 }

/-- BGK collision, lines 99-112. -/
def collide (n : Node) : Node :=
  let usq := n.ux * n.ux + n.uy * n.uy
  dirs.foldl
    (fun n i =>
      let vu := (cx i : ℚ) * n.ux + (cy i : ℚ) * n.uy
      let term1 := 3.0 * vu
      let term2 := 4.5 * vu * vu
      let term3 := 1.5 * usq
      let f_eq := w i * n.rho * (1.0 + term1 + term2 - term3)
      { n with f := Function.update n.f i (n.f i - (1.0 / TAU) * (n.f i - f_eq)) })
    n

/-- Body of the first double loop of `step()` for `n = getNode(x, y)`:
wall nodes are skipped, the others are recovered and collided. -/
def collideNode (n : Node) : Node :=
  if n.isWall then n else collide (recover n)

/-- The inner loop over `x` of the first double loop of `step()`. -/
def collideRow (y : Nat) (g : Lattice) : Lattice :=
  (List.range WIDTH).foldl
    (fun (g : Lattice) (x : Nat) => Function.update g (idx x y) (collideNode (getNode g x y))) g

/-- The first double loop of `step()`, lines 77-114. -/
def collisionSweep (g : Lattice) : Lattice :=
  (List.range HEIGHT).foldl (fun g y => collideRow y g) g

/-- Body of the direction loop of the streaming sweep, lines 122-138, for the
source node `(x, y)` and the direction `i`. -/
def streamDir (x y : Nat) (g : Lattice) (i : Fin 9) : Lattice :=
  let nextX : Int := (x : Int) + cx i
  let nextY : Int := (y : Int) + cy i
  if nextX < 0 ∨ nextX ≥ (WIDTH : Int) ∨ nextY < 0 ∨ nextY ≥ (HEIGHT : Int) then
    setFNew g (idx x y) (opposite i) ((getNode g x y).f i)
  else if (getNode g nextX nextY).isWall then
    setFNew g (idx x y) (opposite i) ((getNode g x y).f i)
  else
    setFNew g (idx nextX nextY) i ((getNode g x y).f i)

/-- The direction loop of the streaming sweep for the source node `(x, y)`. -/
def streamNode (x y : Nat) (g : Lattice) : Lattice :=
  dirs.foldl (streamDir x y) g

/-- The inner loop over `x` of the streaming sweep. -/
def streamRow (y : Nat) (g : Lattice) : Lattice :=
  (List.range WIDTH).foldl (fun g x => streamNode x y g) g

/-- The streaming sweep, lines 116-141. -/
def stream (g : Lattice) : Lattice :=
  (List.range HEIGHT).foldl (fun g y => streamRow y g) g

/-- Body of the commit loop for `grid[k]`, lines 145-147. -/
def commitNode (n : Node) : Node :=
  if !n.isWall then
    dirs.foldl (fun n k => { n with f := Function.update n.f k (n.f_new k) }) n
  else n

/-- The commit loop, lines 144-148 (`grid.size()` is `WIDTH * HEIGHT`). -/
def commit (g : Lattice) : Lattice :=
  (List.range (WIDTH * HEIGHT)).foldl
    (fun g k => Function.update g k (commitNode (g k))) g

/-- The function `step()`. -/
def step (g : Lattice) : Lattice :=
  commit (stream (collisionSweep g))

/-! ## Specification vocabulary -/

/-- The bounds test of line 125, negated: `(x, y)` lies inside the domain. -/
def inDomain (x y : Int) : Prop :=
  0 ≤ x ∧ x < (WIDTH : Int) ∧ 0 ≤ y ∧ y < (HEIGHT : Int)

instance (x y : Int) : Decidable (inDomain x y) := by
  unfold inDomain; infer_instance

/-- The source node `(x, y)` takes one of the two bounce-back branches in
direction `i`: the destination is outside the domain or is a wall. -/
def bounces (g : Lattice) (x y : Int) (i : Fin 9) : Prop :=
  ¬ inDomain (x + cx i) (y + cy i) ∨ (getNode g (x + cx i) (y + cy i)).isWall = true

instance (g : Lattice) (x y : Int) (i : Fin 9) : Decidable (bounces g x y i) := by
  unfold bounces; infer_instance

/-- Two stores agree on everything the streaming sweep reads. -/
def SameFrame (g g0 : Lattice) : Prop :=
  ∀ k, (g k).f = (g0 k).f ∧ (g k).isWall = (g0 k).isWall ∧ (g k).rho = (g0 k).rho ∧
    (g k).ux = (g0 k).ux ∧ (g k).uy = (g0 k).uy

/-- Value of the slot `f_new[j]` of node `k` once the streaming sweep has
processed the source nodes with flattened index below `p`; `old` is the value
the slot held before the sweep. The slot has two possible writers: node `k`
itself (bounce-back, direction `opposite j`) and the upstream node
`m = k - c_j` (normal streaming, direction `j`); the later write wins. -/
def sweepVal (g0 : Lattice) (p k : Nat) (j : Fin 9) (old : ℚ) : ℚ :=
  let kx : Int := ((k % 400 : Nat) : Int)
  let ky : Int := ((k / 400 : Nat) : Int)
  let mx : Int := kx - cx j
  let my : Int := ky - cy j
  if (k < p ∧ bounces g0 kx ky (opposite j)) ∧
      (¬ (inDomain mx my ∧ idx mx my < p ∧ (g0 k).isWall = false) ∨ idx mx my < k) then
    (g0 k).f (opposite j)
  else if inDomain mx my ∧ idx mx my < p ∧ (g0 k).isWall = false then
    (g0 (idx mx my)).f j
  else old

/-- Loop invariant of the streaming sweep: `g` is the store reached from `g0`
after the source nodes with flattened index below `p` have been processed. -/
def StreamInv (g0 : Lattice) (p : Nat) (g : Lattice) : Prop :=
  SameFrame g g0 ∧
    ∀ k, k < 60000 → ∀ j, (g k).f_new j = sweepVal g0 p k j ((g0 k).f_new j)

/-- Density of a distribution: `Σ_i f[i]`. -/
def density (f : Fin 9 → ℚ) : ℚ := ∑ i : Fin 9, f i

/-- First moment in x: `Σ_i f[i] * cx[i]`. -/
def momentX (f : Fin 9 → ℚ) : ℚ := ∑ i : Fin 9, f i * (cx i : ℚ)

/-- First moment in y: `Σ_i f[i] * cy[i]`. -/
def momentY (f : Fin 9 → ℚ) : ℚ := ∑ i : Fin 9, f i * (cy i : ℚ)

/-- The equilibrium distribution `f_eq[i]` for density `rho` and velocity `(ux, uy)`. -/
def fEq (rho ux uy : ℚ) (i : Fin 9) : ℚ :=
  w i * rho * (1 + 3 * ((cx i : ℚ) * ux + (cy i : ℚ) * uy)
    + 4.5 * ((cx i : ℚ) * ux + (cy i : ℚ) * uy) * ((cx i : ℚ) * ux + (cy i : ℚ) * uy)
    - 1.5 * (ux * ux + uy * uy))

/-- A node with every field zero and the wall flag clear. -/
def zeroNode : Node := ⟨fun _ => 0, fun _ => 0, 0, 0, 0, false⟩

/-- The all-zero lattice, a prior state for `init()`. -/
def zeroLattice : Lattice := fun _ => zeroNode

/-- A lattice whose only fluid node is `(0,0)`: every other node is a wall,
all distributions are zero except those of the wall node `(1,0)`, which are one. -/
def enclosedLattice : Lattice := fun k =>
  { f := fun _ => if k = 1 then 1 else 0
    f_new := fun _ => 0
    rho := 0
    ux := 0
    uy := 0
    isWall := decide (k ≠ 0) }

/-- Total mass of the lattice: the sum over all nodes of `Σ_i f[i]`. -/
def totalMass (g : Lattice) : ℚ :=
  ∑ k ∈ Finset.range (WIDTH * HEIGHT), density (g k).f

/-- On a lattice without walls, the slot `(node, direction)` whose value the
streaming sweep moves into the slot `p`: the same direction at the upstream
node if that node is inside the domain, else the opposite direction at the
node itself. -/
def upstream (p : Nat × Fin 9) : Nat × Fin 9 :=
  if inDomain (((p.1 % 400 : Nat) : Int) - cx p.2) (((p.1 / 400 : Nat) : Int) - cy p.2) then
    (idx (((p.1 % 400 : Nat) : Int) - cx p.2) (((p.1 / 400 : Nat) : Int) - cy p.2), p.2)
  else (p.1, opposite p.2)

/-- On a lattice without walls, the slot into which the streaming sweep moves
the value of the slot `p`. -/
def downstream (p : Nat × Fin 9) : Nat × Fin 9 :=
  if inDomain (((p.1 % 400 : Nat) : Int) + cx p.2) (((p.1 / 400 : Nat) : Int) + cy p.2) then
    (idx (((p.1 % 400 : Nat) : Int) + cx p.2) (((p.1 / 400 : Nat) : Int) + cy p.2), p.2)
  else (p.1, opposite p.2)

/-- A lattice without walls in which every node is at rest with density one. -/
def restLattice : Lattice := fun _ =>
  { f := fun i => w i, f_new := fun _ => 0, rho := 1, ux := 0, uy := 0, isWall := false }

/-- The all-zero lattice with the scratch slot `f_new[0]` of node `(0,0)` set to one. -/
def markedLattice : Lattice := setFNew zeroLattice 0 0 1

/-- The entries of the table `opposite[Q]` as the `int` values written in the source. -/
def oppositeTab : List Int := [0, 3, 4, 1, 2, 7, 8, 5, 6]

/-! ## Instrumented loops: the grid indices each loop accesses

Each function below is the loop of the same name with a log threaded through
it; every evaluation of `getNode(x, y)` appends the `int` value `y * WIDTH + x`
it indexes `grid` with, and every `grid[i]` of the commit loop appends `i`. -/

/-- The index expression `y * WIDTH + x` of `getNode`, computed in `int`. -/
def flatIndex (x y : Int) : Int := y * (WIDTH : Int) + x

/-- An index that `getNode` computes from coordinates inside the domain. -/
def InGrid (e : Int) : Prop := ∃ x y : Int, inDomain x y ∧ e = flatIndex x y

/-- Row loop of `init()`, logging `Node& n = getNode(x, y)` (line 50). -/
def initRowLog (y : Nat) (p : Lattice × List Int) : Lattice × List Int :=
  (List.range WIDTH).foldl
    (fun (p : Lattice × List Int) (x : Nat) =>
      (Function.update p.1 (idx x y) (initNode x y (getNode p.1 x y)),
        p.2 ++ [flatIndex x y])) p

/-- The function `init()` with its access log. -/
def initLog (p : Lattice × List Int) : Lattice × List Int :=
  (List.range HEIGHT).foldl (fun p y => initRowLog y p) p

/-- Row loop of the collision sweep, logging `Node& n = getNode(x, y)` (line 79). -/
def collideRowLog (y : Nat) (p : Lattice × List Int) : Lattice × List Int :=
  (List.range WIDTH).foldl
    (fun (p : Lattice × List Int) (x : Nat) =>
      (Function.update p.1 (idx x y) (collideNode (getNode p.1 x y)),
        p.2 ++ [flatIndex x y])) p

/-- The collision sweep with its access log. -/
def collisionSweepLog (p : Lattice × List Int) : Lattice × List Int :=
  (List.range HEIGHT).foldl (fun p y => collideRowLog y p) p

/-- Body of the direction loop of the streaming sweep with its accesses:
`getNode(x, y)` on line 127, or `getNode(nextX, nextY)` on line 129 followed by
`getNode(x, y)` on line 133 when the target is a wall. -/
def streamDirLog (x y : Nat) (p : Lattice × List Int) (i : Fin 9) : Lattice × List Int :=
  let nextX : Int := (x : Int) + cx i
  let nextY : Int := (y : Int) + cy i
  if nextX < 0 ∨ nextX ≥ (WIDTH : Int) ∨ nextY < 0 ∨ nextY ≥ (HEIGHT : Int) then
    (setFNew p.1 (idx x y) (opposite i) ((getNode p.1 x y).f i), p.2 ++ [flatIndex x y])
  else if (getNode p.1 nextX nextY).isWall then
    (setFNew p.1 (idx x y) (opposite i) ((getNode p.1 x y).f i),
      p.2 ++ [flatIndex nextX nextY, flatIndex x y])
  else
    (setFNew p.1 (idx nextX nextY) i ((getNode p.1 x y).f i), p.2 ++ [flatIndex nextX nextY])

/-- Direction loop of the streaming sweep, after `Node& source = getNode(x, y)` (line 118). -/
def streamNodeLog (x y : Nat) (p : Lattice × List Int) : Lattice × List Int :=
  dirs.foldl (streamDirLog x y) (p.1, p.2 ++ [flatIndex x y])

/-- Row loop of the streaming sweep with its access log. -/
def streamRowLog (y : Nat) (p : Lattice × List Int) : Lattice × List Int :=
  (List.range WIDTH).foldl (fun p x => streamNodeLog x y p) p

/-- The streaming sweep with its access log. -/
def streamLog (p : Lattice × List Int) : Lattice × List Int :=
  (List.range HEIGHT).foldl (fun p y => streamRowLog y p) p

/-- The commit loop, logging the index of `grid[i]`. -/
def commitLog (p : Lattice × List Int) : Lattice × List Int :=
  (List.range (WIDTH * HEIGHT)).foldl
    (fun (p : Lattice × List Int) (k : Nat) =>
      (Function.update p.1 k (commitNode (p.1 k)), p.2 ++ [(k : Int)])) p

/-- The function `step()` with its access log, started from the empty log. -/
def stepLog (g : Lattice) : Lattice × List Int :=
  commitLog (streamLog (collisionSweepLog (g, [])))

/-! ## Table facts and loop lemmas -/

theorem w_eq : w 0 = 4 / 9 ∧ w 1 = 1 / 9 ∧ w 2 = 1 / 9 ∧ w 3 = 1 / 9 ∧ w 4 = 1 / 9 ∧
    w 5 = 1 / 36 ∧ w 6 = 1 / 36 ∧ w 7 = 1 / 36 ∧ w 8 = 1 / 36 :=
  ⟨rfl, rfl, rfl, rfl, rfl, rfl, rfl, rfl, rfl⟩

theorem cx_eq : cx 0 = 0 ∧ cx 1 = 1 ∧ cx 2 = 0 ∧ cx 3 = -1 ∧ cx 4 = 0 ∧
    cx 5 = 1 ∧ cx 6 = -1 ∧ cx 7 = -1 ∧ cx 8 = 1 :=
  ⟨rfl, rfl, rfl, rfl, rfl, rfl, rfl, rfl, rfl⟩

theorem cy_eq : cy 0 = 0 ∧ cy 1 = 0 ∧ cy 2 = 1 ∧ cy 3 = 0 ∧ cy 4 = -1 ∧
    cy 5 = 1 ∧ cy 6 = 1 ∧ cy 7 = -1 ∧ cy 8 = -1 :=
  ⟨rfl, rfl, rfl, rfl, rfl, rfl, rfl, rfl, rfl⟩

theorem opposite_eq : opposite 0 = 0 ∧ opposite 1 = 3 ∧ opposite 2 = 4 ∧ opposite 3 = 1 ∧
    opposite 4 = 2 ∧ opposite 5 = 7 ∧ opposite 6 = 8 ∧ opposite 7 = 5 ∧ opposite 8 = 6 :=
  ⟨rfl, rfl, rfl, rfl, rfl, rfl, rfl, rfl, rfl⟩

theorem idx_nat (x y : Nat) : idx (x : Int) (y : Int) = y * 400 + x := by
  unfold idx; simp only [WIDTH]; omega

theorem streamDir_eq (x y : Nat) (g : Lattice) (i : Fin 9) :
    streamDir x y g i =
      if bounces g x y i then setFNew g (idx x y) (opposite i) ((getNode g x y).f i)
      else setFNew g (idx (x + cx i) (y + cy i)) i ((getNode g x y).f i) := by
  unfold streamDir bounces inDomain
  by_cases h1 : (x : Int) + cx i < 0 ∨ (x : Int) + cx i ≥ (WIDTH : Int) ∨
      (y : Int) + cy i < 0 ∨ (y : Int) + cy i ≥ (HEIGHT : Int)
  · have h2 : ¬ (0 ≤ (x : Int) + cx i ∧ (x : Int) + cx i < (WIDTH : Int) ∧
        0 ≤ (y : Int) + cy i ∧ (y : Int) + cy i < (HEIGHT : Int)) := by omega
    simp only [h1, h2, if_true, not_false_eq_true, true_or]
  · have h2 : (0 ≤ (x : Int) + cx i ∧ (x : Int) + cx i < (WIDTH : Int) ∧
        0 ≤ (y : Int) + cy i ∧ (y : Int) + cy i < (HEIGHT : Int)) := by omega
    simp only [h1, h2, if_false, and_self, not_true_eq_false, false_or]

theorem setFNew_frame (g : Lattice) (t : Nat) (s : Fin 9) (v : ℚ) (k : Nat) :
    (setFNew g t s v k).f = (g k).f ∧ (setFNew g t s v k).isWall = (g k).isWall ∧
    (setFNew g t s v k).rho = (g k).rho ∧ (setFNew g t s v k).ux = (g k).ux ∧
    (setFNew g t s v k).uy = (g k).uy := by
  unfold setFNew
  by_cases h : k = t
  · subst h; simp
  · simp [Function.update_noteq h]

theorem setFNew_f_new (g : Lattice) (t : Nat) (s : Fin 9) (v : ℚ) (k : Nat) (j : Fin 9) :
    (setFNew g t s v k).f_new j = if k = t ∧ j = s then v else (g k).f_new j := by
  unfold setFNew
  by_cases h : k = t
  · subst h
    by_cases h2 : j = s
    · subst h2; simp
    · simp [h2]
  · simp [Function.update_noteq h, h]

theorem bounces_congr {g g0 : Lattice} (h : SameFrame g g0) (x y : Int) (i : Fin 9) :
    bounces g x y i ↔ bounces g0 x y i := by
  unfold bounces getNode
  rw [(h _).2.1]

theorem streamDir_frame {g g0 : Lattice} (h : SameFrame g g0) (x y : Nat) (i : Fin 9) :
    SameFrame (streamDir x y g i) g0 := by
  intro k
  rw [streamDir_eq]
  split_ifs
  · have := setFNew_frame g (idx x y) (opposite i) ((getNode g x y).f i) k
    have := h k
    simp_all
  · have := setFNew_frame g (idx (x + cx i) (y + cy i)) i ((getNode g x y).f i) k
    have := h k
    simp_all

/-- Effect of one iteration of the direction loop on the slot `f_new[j]` of
the node with index `k`. -/
theorem streamDir_f_new {g g0 : Lattice} (h : SameFrame g g0) (x y : Nat) (i : Fin 9)
    (k : Nat) (j : Fin 9) :
    (streamDir x y g i k).f_new j =
      if (bounces g0 x y i ∧ k = idx x y ∧ j = opposite i) ∨
         (¬ bounces g0 x y i ∧ k = idx (x + cx i) (y + cy i) ∧ j = i)
      then (g0 (idx x y)).f i else (g k).f_new j := by
  rw [streamDir_eq]
  have hb := bounces_congr h x y i
  have hf : (getNode g x y).f i = (g0 (idx x y)).f i := by
    unfold getNode; rw [(h _).1]
  by_cases hB : bounces g0 x y i
  · rw [if_pos (hb.mpr hB), setFNew_f_new, hf]
    simp [hB]
  · rw [if_neg (fun h => hB (hb.mp h)), setFNew_f_new, hf]
    simp [hB]

theorem rest_of_zero : ∀ j : Fin 9, cx j = 0 → cy j = 0 → j = 0 := by decide

theorem opposite_opposite : ∀ j : Fin 9, opposite (opposite j) = j := by decide

theorem cx_opposite : ∀ j : Fin 9, cx (opposite j) = - cx j := by decide

theorem cy_opposite : ∀ j : Fin 9, cy (opposite j) = - cy j := by decide

theorem cx_bound : ∀ j : Fin 9, -1 ≤ cx j ∧ cx j ≤ 1 := by decide

theorem cy_bound : ∀ j : Fin 9, -1 ≤ cy j ∧ cy j ≤ 1 := by decide

theorem eq_opposite_iff (i j : Fin 9) : j = opposite i ↔ i = opposite j := by
  constructor
  · intro h; rw [h, opposite_opposite]
  · intro h; rw [h, opposite_opposite]

/-- A source node cannot both bounce into and stream into the same slot. -/
theorem writers_exclusive (g0 : Lattice) (x y : Nat) (hx : x < 400) (hy : y < 150)
    (k : Nat) (j : Fin 9)
    (hA : bounces g0 x y (opposite j) ∧ k = idx x y)
    (hB : ¬ bounces g0 x y j ∧ k = idx (x + cx j) (y + cy j)) : False := by
  obtain ⟨hA1, hA2⟩ := hA
  obtain ⟨hB1, hB2⟩ := hB
  have hdom : inDomain (x + cx j) (y + cy j) := by
    by_contra hc; exact hB1 (Or.inl hc)
  unfold inDomain at hdom
  simp only [WIDTH, HEIGHT] at hdom
  rw [hA2] at hB2
  unfold idx at hB2
  simp only [WIDTH] at hB2
  have h0 : cx j = 0 ∧ cy j = 0 := by omega
  have hj : j = 0 := rest_of_zero j h0.1 h0.2
  subst hj
  exact hB1 hA1

theorem last_write_cons (A B : Prop) [Decidable A] [Decidable B] (hAB : A → B → False)
    (i j : Fin 9) (L : List (Fin 9)) (va vb vi old : ℚ)
    (hva : i = opposite j → vi = va) (hvb : i = j → vi = vb) :
    (if opposite j ∈ L ∧ A then va else if j ∈ L ∧ B then vb
      else (if (A ∧ i = opposite j) ∨ (B ∧ i = j) then vi else old)) =
    if opposite j ∈ i :: L ∧ A then va else if j ∈ i :: L ∧ B then vb else old := by
  by_cases hA : A
  · have hB : ¬ B := fun hB => hAB hA hB
    by_cases hm : opposite j ∈ L
    · simp [hA, hm]
    · by_cases hi : i = opposite j
      · simp [hA, hB, hm, hi, hva hi]
      · have hi2 : ¬ opposite j = i := fun h => hi h.symm
        simp [hA, hB, hm, hi, hi2]
  · by_cases hB : B
    · by_cases hm : j ∈ L
      · simp [hA, hB, hm]
      · by_cases hi : i = j
        · simp [hA, hB, hm, hi, hvb hi]
        · have hi2 : ¬ j = i := fun h => hi h.symm
          simp [hA, hB, hm, hi, hi2]
    · simp [hA, hB]

theorem foldl_streamDir {g0 : Lattice} (x y : Nat) (hx : x < 400) (hy : y < 150)
    (k : Nat) (j : Fin 9) (L : List (Fin 9)) :
    ∀ g : Lattice, SameFrame g g0 →
      SameFrame (L.foldl (streamDir x y) g) g0 ∧
      (L.foldl (streamDir x y) g k).f_new j =
        if opposite j ∈ L ∧ (bounces g0 x y (opposite j) ∧ k = idx x y) then
          (g0 (idx x y)).f (opposite j)
        else if j ∈ L ∧ (¬ bounces g0 x y j ∧ k = idx (x + cx j) (y + cy j)) then
          (g0 (idx x y)).f j
        else (g k).f_new j := by
  induction L with
  | nil => intro g h; simp [h]
  | cons i L ih =>
    intro g h
    have h1 := streamDir_frame h x y i
    obtain ⟨ihF, ihV⟩ := ih (streamDir x y g i) h1
    refine ⟨ihF, ?_⟩
    rw [List.foldl_cons, ihV, streamDir_f_new h]
    have hc : ((bounces g0 x y i ∧ k = idx x y ∧ j = opposite i) ∨
         (¬ bounces g0 x y i ∧ k = idx (x + cx i) (y + cy i) ∧ j = i)) ↔
        (((bounces g0 x y (opposite j) ∧ k = idx x y) ∧ i = opposite j) ∨
         ((¬ bounces g0 x y j ∧ k = idx (x + cx j) (y + cy j)) ∧ i = j)) := by
      constructor
      · rintro (⟨a, b, c⟩ | ⟨a, b, c⟩)
        · have c2 := (eq_opposite_iff i j).mp c
          left; subst c; rw [opposite_opposite]; exact ⟨⟨a, b⟩, rfl⟩
        · right; subst c; exact ⟨⟨a, b⟩, rfl⟩
      · rintro (⟨⟨a, b⟩, c⟩ | ⟨⟨a, b⟩, c⟩)
        · left; subst c; rw [opposite_opposite] ; exact ⟨a, b, rfl⟩
        · right; subst c; exact ⟨a, b, rfl⟩
    simp only [hc]
    exact last_write_cons _ _ (writers_exclusive g0 x y hx hy k j) i j L _ _ _ _
      (fun h => by rw [h]) (fun h => by rw [h])

theorem mem_dirs : ∀ j : Fin 9, j ∈ dirs := by decide

theorem streamNode_f_new {g g0 : Lattice} (h : SameFrame g g0) (x y : Nat) (hx : x < 400)
    (hy : y < 150) (k : Nat) (j : Fin 9) :
    SameFrame (streamNode x y g) g0 ∧
    (streamNode x y g k).f_new j =
      if bounces g0 x y (opposite j) ∧ k = idx x y then (g0 (idx x y)).f (opposite j)
      else if ¬ bounces g0 x y j ∧ k = idx (x + cx j) (y + cy j) then (g0 (idx x y)).f j
      else (g k).f_new j := by
  have := foldl_streamDir x y hx hy k j dirs g h
  simp only [mem_dirs, true_and] at this
  exact this

theorem sweepVal_step (g0 : Lattice) (x y : Nat) (hx : x < 400) (hy : y < 150)
    (k : Nat) (hk : k < 60000) (j : Fin 9) (old : ℚ) :
    (if bounces g0 x y (opposite j) ∧ k = idx x y then (g0 (idx x y)).f (opposite j)
      else if ¬ bounces g0 x y j ∧ k = idx (x + cx j) (y + cy j) then (g0 (idx x y)).f j
      else sweepVal g0 (y * 400 + x) k j old) = sweepVal g0 (y * 400 + x + 1) k j old := by
  have hcx := cx_bound j
  have hcy := cy_bound j
  have hidx : idx (x : Int) (y : Int) = y * 400 + x := idx_nat x y
  by_cases hA : bounces g0 x y (opposite j) ∧ k = idx x y
  · rw [if_pos hA]
    obtain ⟨hA1, hA2⟩ := hA
    rw [hidx] at hA2
    have e1 : ((k % 400 : Nat) : Int) = x := by omega
    have e2 : ((k / 400 : Nat) : Int) = y := by omega
    unfold sweepVal
    simp only [e1, e2]
    rw [if_pos]
    · rw [hidx, hA2]
    · refine ⟨⟨by omega, hA1⟩, ?_⟩
      by_cases hm : inDomain ((x : Int) - cx j) ((y : Int) - cy j) ∧
          idx ((x : Int) - cx j) ((y : Int) - cy j) < y * 400 + x + 1 ∧ (g0 k).isWall = false
      · right
        obtain ⟨hd, hlt, hw⟩ := hm
        unfold inDomain at hd
        simp only [WIDTH, HEIGHT] at hd
        unfold idx at hlt ⊢
        simp only [WIDTH] at hlt ⊢
        by_contra hge
        have h0 : cx j = 0 ∧ cy j = 0 := by omega
        have hj : j = 0 := rest_of_zero j h0.1 h0.2
        subst hj
        rcases hA1 with hA1 | hA1
        · apply hA1
          unfold inDomain
          simp only [WIDTH, HEIGHT, opposite_eq, cx_eq, cy_eq]
          omega
        · have : getNode g0 ((x : Int) + cx (opposite 0)) ((y : Int) + cy (opposite 0)) = g0 k := by
            unfold getNode
            have : idx ((x : Int) + cx (opposite 0)) ((y : Int) + cy (opposite 0)) = k := by
              simp only [opposite_eq, cx_eq, cy_eq, add_zero]
              rw [hidx, hA2]
            rw [this]
          rw [this] at hA1
          rw [hA1] at hw
          exact absurd hw (by decide)
      · left; exact hm
  · rw [if_neg hA]
    by_cases hB : ¬ bounces g0 x y j ∧ k = idx (x + cx j) (y + cy j)
    · rw [if_pos hB]
      obtain ⟨hB1, hB2⟩ := hB
      have hdom : inDomain (x + cx j) (y + cy j) := by
        by_contra hc; exact hB1 (Or.inl hc)
      have hwall : (g0 k).isWall = false := by
        by_contra hc
        apply hB1
        right
        unfold getNode
        rw [← hB2]
        simpa using hc
      have hd := hdom
      unfold inDomain at hd
      simp only [WIDTH, HEIGHT] at hd
      have hB3 := hB2
      unfold idx at hB3
      simp only [WIDTH] at hB3
      have e1 : ((k % 400 : Nat) : Int) = x + cx j := by omega
      have e2 : ((k / 400 : Nat) : Int) = y + cy j := by omega
      unfold sweepVal
      simp only [e1, e2, add_sub_cancel_right, hidx, hwall, and_true]
      have hdm : inDomain (x : Int) (y : Int) := by
        unfold inDomain; simp only [WIDTH, HEIGHT]; omega
      rw [if_neg, if_pos]
      · exact ⟨hdm, by omega⟩
      · rintro ⟨⟨h1, _⟩, h2 | h2⟩
        · exact h2 ⟨hdm, by omega⟩
        · omega
    · rw [if_neg hB]
      unfold sweepVal
      have hk1 : (k < y * 400 + x + 1 ∧
          bounces g0 ((k % 400 : Nat) : Int) ((k / 400 : Nat) : Int) (opposite j)) ↔
          (k < y * 400 + x ∧
          bounces g0 ((k % 400 : Nat) : Int) ((k / 400 : Nat) : Int) (opposite j)) := by
        constructor
        · rintro ⟨h1, h2⟩
          refine ⟨?_, h2⟩
          by_contra hc
          have hkp : k = y * 400 + x := by omega
          have e1 : ((k % 400 : Nat) : Int) = x := by omega
          have e2 : ((k / 400 : Nat) : Int) = y := by omega
          rw [e1, e2] at h2
          exact hA ⟨h2, by rw [hidx]; exact hkp⟩
        · rintro ⟨h1, h2⟩; exact ⟨by omega, h2⟩
      have hm1 : (inDomain (((k % 400 : Nat) : Int) - cx j) (((k / 400 : Nat) : Int) - cy j) ∧
          idx (((k % 400 : Nat) : Int) - cx j) (((k / 400 : Nat) : Int) - cy j) < y * 400 + x + 1 ∧
          (g0 k).isWall = false) ↔
          (inDomain (((k % 400 : Nat) : Int) - cx j) (((k / 400 : Nat) : Int) - cy j) ∧
          idx (((k % 400 : Nat) : Int) - cx j) (((k / 400 : Nat) : Int) - cy j) < y * 400 + x ∧
          (g0 k).isWall = false) := by
        constructor
        · rintro ⟨h1, h2, h3⟩
          refine ⟨h1, ?_, h3⟩
          by_contra hc
          have hd := h1
          unfold inDomain at hd
          simp only [WIDTH, HEIGHT] at hd
          unfold idx at h2 hc
          simp only [WIDTH] at h2 hc
          have e1 : (x : Int) + cx j = ((k % 400 : Nat) : Int) := by omega
          have e2 : (y : Int) + cy j = ((k / 400 : Nat) : Int) := by omega
          have e3 : idx ((x : Int) + cx j) ((y : Int) + cy j) = k := by
            rw [e1, e2, idx_nat]; omega
          apply hB
          refine ⟨?_, e3.symm⟩
          rintro (hb | hb)
          · apply hb
            rw [e1, e2]
            unfold inDomain; simp only [WIDTH, HEIGHT]; omega
          · unfold getNode at hb
            rw [e3, h3] at hb
            exact absurd hb (by decide)
        · rintro ⟨h1, h2, h3⟩; exact ⟨h1, by omega, h3⟩
      simp only [hk1, hm1]

theorem streamInv_zero (g0 : Lattice) : StreamInv g0 0 g0 := by
  refine ⟨fun k => ⟨rfl, rfl, rfl, rfl, rfl⟩, ?_⟩
  intro k _ j
  unfold sweepVal
  simp

theorem streamInv_node {g0 g : Lattice} (x y : Nat) (hx : x < 400) (hy : y < 150)
    (h : StreamInv g0 (y * 400 + x) g) : StreamInv g0 (y * 400 + x + 1) (streamNode x y g) := by
  refine ⟨(streamNode_f_new h.1 x y hx hy 0 0).1, ?_⟩
  intro k hk j
  rw [(streamNode_f_new h.1 x y hx hy k j).2, h.2 k hk j]
  exact sweepVal_step g0 x y hx hy k hk j _

theorem streamInv_row {g0 : Lattice} (y : Nat) (hy : y < 150) (n : Nat) (hn : n ≤ 400)
    (g : Lattice) (h : StreamInv g0 (y * 400) g) :
    StreamInv g0 (y * 400 + n) ((List.range n).foldl (fun g x => streamNode x y g) g) := by
  induction n with
  | zero => simpa using h
  | succ n ih =>
    rw [List.range_succ n, List.foldl_append]
    simp only [List.foldl_cons, List.foldl_nil]
    have h2 := streamInv_node n y (by omega) hy (ih (by omega))
    rw [Nat.add_assoc] at h2
    exact h2

theorem streamInv_streamRow {g0 : Lattice} (y : Nat) (hy : y < 150)
    (g : Lattice) (h : StreamInv g0 (y * 400) g) :
    StreamInv g0 (y * 400 + 400) (streamRow y g) := by
  unfold streamRow
  exact streamInv_row y hy WIDTH (le_refl _) g h

theorem streamInv_rows (g0 : Lattice) (m : Nat) (hm : m ≤ 150) :
    StreamInv g0 (m * 400) ((List.range m).foldl (fun g y => streamRow y g) g0) := by
  induction m with
  | zero => simpa using streamInv_zero g0
  | succ m ih =>
    rw [List.range_succ m, List.foldl_append]
    simp only [List.foldl_cons, List.foldl_nil]
    have e : (m + 1) * 400 = m * 400 + 400 := by ring
    rw [e]
    exact streamInv_streamRow m (by omega) _ (ih (by omega))

theorem stream_inv (g0 : Lattice) : StreamInv g0 60000 (stream g0) := by
  unfold stream
  exact streamInv_rows g0 HEIGHT (le_refl _)

/-! ## Closed forms of the per-node loop bodies -/

theorem sum_dirs (f : Fin 9 → ℚ) :
    ∑ i : Fin 9, f i = f 0 + f 1 + f 2 + f 3 + f 4 + f 5 + f 6 + f 7 + f 8 := by
  rw [Fin.sum_univ_castSucc, Fin.sum_univ_eight]
  rfl

theorem recover_rho (n : Node) : (recover n).rho = density n.f := by
  unfold recover density
  rw [sum_dirs]
  simp only [dirs, List.foldl, zero_add]
  split_ifs <;> simp

theorem recover_ux (n : Node) :
    (recover n).ux = if density n.f > 0 then momentX n.f / density n.f else 0 := by
  unfold recover density momentX
  rw [sum_dirs, sum_dirs]
  simp only [dirs, List.foldl, zero_add]
  split_ifs <;> simp

theorem recover_uy (n : Node) :
    (recover n).uy = if density n.f > 0 then momentY n.f / density n.f else 0 := by
  unfold recover density momentY
  rw [sum_dirs, sum_dirs]
  simp only [dirs, List.foldl, zero_add]
  split_ifs <;> simp

theorem recover_frame (n : Node) :
    (recover n).f = n.f ∧ (recover n).f_new = n.f_new ∧ (recover n).isWall = n.isWall := by
  unfold recover
  simp only [dirs, List.foldl, zero_add]
  split_ifs <;> simp

theorem collide_f (n : Node) (i : Fin 9) :
    (collide n).f i = n.f i - (1 / TAU) * (n.f i - fEq n.rho n.ux n.uy i) := by
  fin_cases i <;> simp [collide, fEq, dirs, Function.update] <;> norm_num

theorem collide_frame (n : Node) :
    (collide n).f_new = n.f_new ∧ (collide n).isWall = n.isWall ∧ (collide n).rho = n.rho ∧
    (collide n).ux = n.ux ∧ (collide n).uy = n.uy := by
  simp [collide, dirs]

theorem commitNode_eq (n : Node) :
    commitNode n = if n.isWall then n else { n with f := n.f_new } := by
  unfold commitNode
  cases hw : n.isWall
  · simp only [Bool.not_false, if_true, Bool.false_eq_true, if_false]
    ext i
    · fin_cases i <;> simp [dirs, Function.update]
    all_goals simp [dirs, hw]
  · simp

theorem barrier_test (y : Nat) :
    ((y : ℚ) < (HEIGHT : ℚ) * 0.4 ∨ (y : ℚ) > (HEIGHT : ℚ) * 0.6) ↔ (y < 60 ∨ y > 90) := by
  have e1 : (HEIGHT : ℚ) * 0.4 = ((60 : ℕ) : ℚ) := by norm_num [HEIGHT]
  have e2 : (HEIGHT : ℚ) * 0.6 = ((90 : ℕ) : ℚ) := by norm_num [HEIGHT]
  rw [e1, e2, gt_iff_lt, Nat.cast_lt, Nat.cast_lt]

theorem init_fill (n : Node) :
    dirs.foldl (fun (n : Node) i => { n with f := Function.update n.f i (w i * n.rho) }) n
      = { n with f := fun i => w i * n.rho } := by
  ext i
  · fin_cases i <;> simp [dirs, Function.update]
  all_goals simp [dirs]

theorem initNode_fields (x y : Nat) (n : Node) :
    (initNode x y n).isWall =
      decide (y = 0 ∨ y = 149 ∨ (x = 200 ∧ (y < 60 ∨ y > 90))) ∧
    (initNode x y n).rho = (if x < 200 then 1 else 0.98) ∧
    (initNode x y n).ux = 0 ∧ (initNode x y n).uy = 0 ∧
    (initNode x y n).f_new = n.f_new ∧
    ∀ i, (initNode x y n).f i = w i * (if x < 200 then 1 else 0.98) := by
  unfold initNode
  simp only [init_fill, barrier_test, WIDTH, HEIGHT, Nat.reduceDiv, Nat.reduceSub]
  by_cases h1 : x = 200 <;> by_cases h2 : (y < 60 ∨ y > 90) <;>
    by_cases h3 : (y = 0 ∨ y = 149) <;> by_cases h4 : x < 200 <;>
    simp [h1, h2, h3, h4] <;> first | omega | tauto | norm_num

/-! ## Closed forms of the in-place sweeps -/

/-- Closed form of a row loop that rewrites each node of row `y` in place. -/
theorem rowFold_apply (F : Nat → Nat → Node → Node) (y n : Nat) (hn : n ≤ 400)
    (g : Lattice) (k : Nat) :
    ((List.range n).foldl
      (fun (g : Lattice) (x : Nat) =>
        Function.update g (idx x y) (F x y (getNode g x y))) g) k
      = if k / 400 = y ∧ k % 400 < n then F (k % 400) y (g k) else g k := by
  induction n with
  | zero => simp
  | succ n ih =>
    rw [List.range_succ n, List.foldl_append]
    simp only [List.foldl_cons, List.foldl_nil, getNode, idx_nat]
    have ih1 := ih (by omega)
    simp only [getNode, idx_nat] at ih1
    by_cases hk : k = y * 400 + n
    · subst hk
      have h1 : (y * 400 + n) / 400 = y := by omega
      have h2 : (y * 400 + n) % 400 = n := by omega
      rw [Function.update_same, ih1]
      simp [h1, h2]
    · rw [Function.update_noteq hk, ih1]
      have : (k / 400 = y ∧ k % 400 < n + 1) ↔ (k / 400 = y ∧ k % 400 < n) := by
        constructor
        · rintro ⟨a, b⟩; exact ⟨a, by omega⟩
        · rintro ⟨a, b⟩; exact ⟨a, by omega⟩
      simp only [this]

/-- Closed form of a double loop that rewrites each node in place. -/
theorem sweepFold_apply (F : Nat → Nat → Node → Node) (m : Nat) (g : Lattice) (k : Nat) :
    ((List.range m).foldl
      (fun (g : Lattice) (y : Nat) =>
        (List.range WIDTH).foldl
          (fun (g : Lattice) (x : Nat) =>
            Function.update g (idx x y) (F x y (getNode g x y))) g) g) k
      = if k / 400 < m then F (k % 400) (k / 400) (g k) else g k := by
  induction m with
  | zero => simp
  | succ m ih =>
    rw [List.range_succ m, List.foldl_append]
    simp only [List.foldl_cons, List.foldl_nil]
    rw [rowFold_apply F m WIDTH le_rfl, ih]
    have hlt : k % 400 < 400 := Nat.mod_lt _ (by decide)
    by_cases h1 : k / 400 = m
    · simp [h1, hlt]
    · have h2 : ¬ (k / 400 = m ∧ k % 400 < WIDTH) := fun h => h1 h.1
      rw [if_neg h2]
      have : (k / 400 < m + 1) ↔ (k / 400 < m) := by omega
      simp only [this]

theorem init_apply (g : Lattice) (k : Nat) :
    init g k = if k < 60000 then initNode (k % 400) (k / 400) (g k) else g k := by
  unfold init initRow
  rw [sweepFold_apply (fun x y n => initNode x y n) HEIGHT g k]
  have : k / 400 < HEIGHT ↔ k < 60000 := by simp only [HEIGHT]; omega
  simp only [this]

theorem collisionSweep_apply (g : Lattice) (k : Nat) :
    collisionSweep g k = if k < 60000 then collideNode (g k) else g k := by
  unfold collisionSweep collideRow
  rw [sweepFold_apply (fun _ _ n => collideNode n) HEIGHT g k]
  have : k / 400 < HEIGHT ↔ k < 60000 := by simp only [HEIGHT]; omega
  simp only [this]

theorem commitFold_apply (n : Nat) (g : Lattice) (k : Nat) :
    ((List.range n).foldl
      (fun (g : Lattice) (k : Nat) => Function.update g k (commitNode (g k))) g) k
      = if k < n then commitNode (g k) else g k := by
  induction n with
  | zero => simp
  | succ n ih =>
    rw [List.range_succ n, List.foldl_append]
    simp only [List.foldl_cons, List.foldl_nil]
    by_cases hk : k = n
    · subst hk
      rw [Function.update_same, ih]
      simp
    · rw [Function.update_noteq hk, ih]
      have : k < n + 1 ↔ k < n := by omega
      simp only [this]

theorem commit_apply (g : Lattice) (k : Nat) :
    commit g k = if k < 60000 then commitNode (g k) else g k := by
  unfold commit
  exact commitFold_apply (WIDTH * HEIGHT) g k

/-! ## The streaming sweep and `step()` in coordinates -/

theorem idx_lt (x y : Nat) (hx : x < 400) (hy : y < 150) :
    idx (x : Int) (y : Int) < 60000 := by
  rw [idx_nat]; omega

theorem stream_frame (g : Lattice) : SameFrame (stream g) g := (stream_inv g).1

/-- Value of every `f_new` slot after the complete streaming sweep. -/
theorem stream_slot (g0 : Lattice) (x y : Nat) (hx : x < 400) (hy : y < 150) (j : Fin 9) :
    (getNode (stream g0) x y).f_new j =
      if bounces g0 x y (opposite j) ∧
          (¬ (inDomain (x - cx j) (y - cy j) ∧ (getNode g0 x y).isWall = false) ∨
            idx (x - cx j) (y - cy j) < idx x y) then
        (getNode g0 x y).f (opposite j)
      else if inDomain (x - cx j) (y - cy j) ∧ (getNode g0 x y).isWall = false then
        (getNode g0 (x - cx j) (y - cy j)).f j
      else (getNode g0 x y).f_new j := by
  have hk : idx (x : Int) (y : Int) < 60000 := idx_lt x y hx hy
  have hidx := idx_nat x y
  unfold getNode
  rw [(stream_inv g0).2 _ hk j]
  unfold sweepVal
  have e1 : (((idx (x : Int) (y : Int)) % 400 : Nat) : Int) = x := by rw [hidx]; omega
  have e2 : (((idx (x : Int) (y : Int)) / 400 : Nat) : Int) = y := by rw [hidx]; omega
  simp only [e1, e2]
  have hcx := cx_bound j
  have hcy := cy_bound j
  have hm : (inDomain ((x : Int) - cx j) ((y : Int) - cy j) ∧
      idx ((x : Int) - cx j) ((y : Int) - cy j) < 60000 ∧
      (g0 (idx (x : Int) (y : Int))).isWall = false) ↔
      (inDomain ((x : Int) - cx j) ((y : Int) - cy j) ∧
      (g0 (idx (x : Int) (y : Int))).isWall = false) := by
    constructor
    · rintro ⟨a, _, c⟩; exact ⟨a, c⟩
    · rintro ⟨a, c⟩
      refine ⟨a, ?_, c⟩
      unfold inDomain at a
      simp only [WIDTH, HEIGHT] at a
      unfold idx
      simp only [WIDTH]
      omega
  simp only [hm, hk, true_and]

/-- Bounce-back at the domain boundary: the upstream cell of slot `j` is outside. -/
theorem stream_slot_outside (g0 : Lattice) (x y : Nat) (hx : x < 400) (hy : y < 150)
    (j : Fin 9) (hout : ¬ inDomain (x - cx j) (y - cy j)) :
    (getNode (stream g0) x y).f_new j = (getNode g0 x y).f (opposite j) := by
  rw [stream_slot g0 x y hx hy j, if_pos]
  refine ⟨Or.inl ?_, Or.inl (fun h => hout h.1)⟩
  rw [cx_opposite, cy_opposite]
  simpa [sub_eq_add_neg] using hout

/-- Normal streaming: the upstream cell of slot `j` is a fluid node. -/
theorem stream_slot_fluid (g0 : Lattice) (x y : Nat) (hx : x < 400) (hy : y < 150)
    (j : Fin 9) (hin : inDomain (x - cx j) (y - cy j))
    (hM : (getNode g0 (x - cx j) (y - cy j)).isWall = false)
    (hK : (getNode g0 x y).isWall = false) :
    (getNode (stream g0) x y).f_new j = (getNode g0 (x - cx j) (y - cy j)).f j := by
  rw [stream_slot g0 x y hx hy j, if_neg, if_pos ⟨hin, hK⟩]
  rintro ⟨hb, _⟩
  unfold bounces at hb
  rw [cx_opposite, cy_opposite, ← sub_eq_add_neg, ← sub_eq_add_neg] at hb
  rcases hb with hb | hb
  · exact hb hin
  · rw [hM] at hb; exact absurd hb (by decide)

/-- The upstream cell of slot `j` is a wall: two writes hit the slot, the
bounce-back of the node itself and the streaming write of the wall node, and
the one issued later in the sweep wins. -/
theorem stream_slot_wall (g0 : Lattice) (x y : Nat) (hx : x < 400) (hy : y < 150)
    (j : Fin 9) (hin : inDomain (x - cx j) (y - cy j))
    (hM : (getNode g0 (x - cx j) (y - cy j)).isWall = true)
    (hK : (getNode g0 x y).isWall = false) :
    (getNode (stream g0) x y).f_new j =
      if idx (x - cx j) (y - cy j) < idx x y then (getNode g0 x y).f (opposite j)
      else (getNode g0 (x - cx j) (y - cy j)).f j := by
  rw [stream_slot g0 x y hx hy j]
  have hb : bounces g0 x y (opposite j) := by
    right
    rw [cx_opposite, cy_opposite, ← sub_eq_add_neg, ← sub_eq_add_neg]
    exact hM
  by_cases hlt : idx ((x : Int) - cx j) ((y : Int) - cy j) < idx (x : Int) (y : Int)
  · rw [if_pos ⟨hb, Or.inr hlt⟩, if_pos hlt]
  · rw [if_neg, if_pos ⟨hin, hK⟩, if_neg hlt]
    rintro ⟨_, h | h⟩
    · exact h ⟨hin, hK⟩
    · exact hlt h

theorem collideNode_isWall (n : Node) : (collideNode n).isWall = n.isWall := by
  unfold collideNode
  split_ifs with h
  · rfl
  · rw [(collide_frame _).2.1, (recover_frame _).2.2]

theorem collisionSweep_isWall (g : Lattice) (k : Nat) :
    (collisionSweep g k).isWall = (g k).isWall := by
  rw [collisionSweep_apply]
  split_ifs
  · exact collideNode_isWall _
  · rfl

theorem commitNode_frame (n : Node) :
    (commitNode n).isWall = n.isWall ∧ (commitNode n).rho = n.rho ∧
    (commitNode n).ux = n.ux ∧ (commitNode n).uy = n.uy ∧
    (commitNode n).f_new = n.f_new := by
  rw [commitNode_eq]
  split_ifs <;> simp

theorem step_apply (g : Lattice) (k : Nat) (hk : k < 60000) :
    step g k = commitNode (stream (collisionSweep g) k) := by
  unfold step
  rw [commit_apply, if_pos hk]

theorem step_isWall (g : Lattice) (k : Nat) : (step g k).isWall = (g k).isWall := by
  unfold step
  rw [commit_apply]
  split_ifs
  · rw [(commitNode_frame _).1, (stream_frame _ k).2.1, collisionSweep_isWall]
  · rw [(stream_frame _ k).2.1, collisionSweep_isWall]

/-- After `step()`, a fluid node holds in `f` what streaming left in `f_new`. -/
theorem step_f (g : Lattice) (x y : Nat) (hx : x < 400) (hy : y < 150)
    (hw : (getNode g x y).isWall = false) :
    (getNode (step g) x y).f = (getNode (stream (collisionSweep g)) x y).f_new := by
  unfold getNode at hw ⊢
  rw [step_apply g _ (idx_lt x y hx hy), commitNode_eq]
  have : (stream (collisionSweep g) (idx x y)).isWall = false := by
    rw [(stream_frame _ _).2.1, collisionSweep_isWall, hw]
  simp [this]

/-- After `step()`, the macroscopic fields of a fluid node are those recovered
from the distribution it held before the step. -/
theorem step_fields (g : Lattice) (x y : Nat) (hx : x < 400) (hy : y < 150)
    (hw : (getNode g x y).isWall = false) :
    (getNode (step g) x y).rho = (recover (getNode g x y)).rho ∧
    (getNode (step g) x y).ux = (recover (getNode g x y)).ux ∧
    (getNode (step g) x y).uy = (recover (getNode g x y)).uy := by
  unfold getNode at hw ⊢
  have hk := idx_lt x y hx hy
  rw [step_apply g _ hk]
  have hc : collisionSweep g (idx x y) = collide (recover (g (idx x y))) := by
    rw [collisionSweep_apply, if_pos hk]
    unfold collideNode
    simp [hw]
  have hf := stream_frame (collisionSweep g) (idx x y)
  have hcf := collide_frame (recover (g (idx x y)))
  have hcm := commitNode_frame (stream (collisionSweep g) (idx x y))
  rw [hcm.2.1, hcm.2.2.1, hcm.2.2.2.1, hf.2.2.1, hf.2.2.2.1, hf.2.2.2.2, hc,
    hcf.2.2.1, hcf.2.2.2.1, hcf.2.2.2.2]
  exact ⟨rfl, rfl, rfl⟩

/-! ## Equilibrium at rest and per-node conservation -/

theorem density_rest (f : Fin 9 → ℚ) (r : ℚ) (hf : ∀ i, f i = w i * r) : density f = r := by
  unfold density
  rw [sum_dirs]
  simp only [hf, w_eq]
  ring

theorem momentX_rest (f : Fin 9 → ℚ) (r : ℚ) (hf : ∀ i, f i = w i * r) : momentX f = 0 := by
  unfold momentX
  rw [sum_dirs]
  simp only [hf, w_eq, cx_eq]
  push_cast
  ring

theorem momentY_rest (f : Fin 9 → ℚ) (r : ℚ) (hf : ∀ i, f i = w i * r) : momentY f = 0 := by
  unfold momentY
  rw [sum_dirs]
  simp only [hf, w_eq, cy_eq]
  push_cast
  ring

/-- Recovery followed by collision on a node at rest in equilibrium. -/
theorem collide_recover_rest (n : Node) (r : ℚ) (hf : ∀ i, n.f i = w i * r) :
    (∀ i, (collide (recover n)).f i = w i * r) ∧ (collide (recover n)).rho = r ∧
    (collide (recover n)).ux = 0 ∧ (collide (recover n)).uy = 0 := by
  have hr : (recover n).rho = r := by rw [recover_rho, density_rest _ r hf]
  have hx : (recover n).ux = 0 := by
    rw [recover_ux, momentX_rest _ r hf]; simp
  have hy : (recover n).uy = 0 := by
    rw [recover_uy, momentY_rest _ r hf]; simp
  have hc := collide_frame (recover n)
  refine ⟨?_, by rw [hc.2.2.1, hr], by rw [hc.2.2.2.1, hx], by rw [hc.2.2.2.2, hy]⟩
  intro i
  rw [collide_f, hr, hx, hy, (recover_frame n).1, hf i]
  unfold fEq TAU
  ring

theorem collideNode_rest (n : Node) (r : ℚ) (hf : ∀ i, n.f i = w i * r) (i : Fin 9) :
    (collideNode n).f i = w i * r := by
  unfold collideNode
  split_ifs
  · exact hf i
  · exact (collide_recover_rest n r hf).1 i

/-! ## The state produced by `init()` -/

theorem init_coord (s0 : Lattice) (x y : Nat) (hx : x < 400) (hy : y < 150) :
    getNode (init s0) x y = initNode x y (getNode s0 x y) := by
  unfold getNode
  rw [init_apply, if_pos (idx_lt x y hx hy), idx_nat]
  have e1 : (y * 400 + x) % 400 = x := by omega
  have e2 : (y * 400 + x) / 400 = y := by omega
  rw [e1, e2]

theorem init_isWall (s0 : Lattice) (x y : Nat) (hx : x < 400) (hy : y < 150) :
    (getNode (init s0) x y).isWall =
      decide (y = 0 ∨ y = 149 ∨ (x = 200 ∧ (y < 60 ∨ y > 90))) := by
  rw [init_coord s0 x y hx hy]
  exact (initNode_fields x y _).1

theorem init_f (s0 : Lattice) (x y : Nat) (hx : x < 400) (hy : y < 150) (i : Fin 9) :
    (getNode (init s0) x y).f i = w i * (if x < 200 then 1 else 0.98) := by
  rw [init_coord s0 x y hx hy]
  exact (initNode_fields x y _).2.2.2.2.2 i

theorem init_rho (s0 : Lattice) (x y : Nat) (hx : x < 400) (hy : y < 150) :
    (getNode (init s0) x y).rho = (if x < 200 then 1 else 0.98) := by
  rw [init_coord s0 x y hx hy]
  exact (initNode_fields x y _).2.1

/-- The collision sweep leaves a node at rest in equilibrium as it is. -/
theorem collisionSweep_rest (g : Lattice) (x y : Nat) (hx : x < 400) (hy : y < 150)
    (r : ℚ) (hf : ∀ i, (getNode g x y).f i = w i * r) (i : Fin 9) :
    (getNode (collisionSweep g) x y).f i = w i * r := by
  unfold getNode at hf ⊢
  rw [collisionSweep_apply, if_pos (idx_lt x y hx hy)]
  exact collideNode_rest _ _ hf i

/-- The collision sweep leaves the distributions of the initial state as they are. -/
theorem collisionSweep_init_f (s0 : Lattice) (x y : Nat) (hx : x < 400) (hy : y < 150)
    (i : Fin 9) :
    (getNode (collisionSweep (init s0)) x y).f i = w i * (if x < 200 then 1 else 0.98) :=
  collisionSweep_rest (init s0) x y hx hy _ (init_f s0 x y hx hy) i

theorem collisionSweep_isWall_coord (g : Lattice) (x y : Int) :
    (getNode (collisionSweep g) x y).isWall = (getNode g x y).isWall := by
  unfold getNode
  exact collisionSweep_isWall g _

theorem step_isWall_coord (g : Lattice) (x y : Int) :
    (getNode (step g) x y).isWall = (getNode g x y).isWall := by
  unfold getNode
  exact step_isWall g _

theorem iterate_step_isWall (g : Lattice) (n : Nat) (k : Nat) :
    (step^[n] g k).isWall = (g k).isWall := by
  induction n with
  | zero => rfl
  | succ n ih => rw [Function.iterate_succ_apply', step_isWall, ih]

/-- One `step()` from the initial state: a slot of a fluid node whose upstream
neighbour `(mx, my)` is a fluid node receives that neighbour's initial value. -/
theorem step_init_slot (s0 : Lattice) (x y : Nat) (hx : x < 400) (hy : y < 150) (j : Fin 9)
    (mx my : Nat) (hmx : (x : Int) - cx j = mx) (hmy : (y : Int) - cy j = my)
    (hmx4 : mx < 400) (hmy4 : my < 150)
    (hK : (getNode (init s0) x y).isWall = false)
    (hM : (getNode (init s0) mx my).isWall = false) :
    (getNode (step (init s0)) x y).f j = w j * (if mx < 200 then 1 else 0.98) := by
  rw [step_f (init s0) x y hx hy hK,
    stream_slot_fluid (collisionSweep (init s0)) x y hx hy j
      (by rw [hmx, hmy]; unfold inDomain; simp only [WIDTH, HEIGHT]; omega)
      (by rw [hmx, hmy, collisionSweep_isWall_coord]; exact hM)
      (by rw [collisionSweep_isWall_coord]; exact hK),
    hmx, hmy, collisionSweep_init_f s0 mx my hmx4 hmy4]

/-! ## Mass conservation -/

theorem sum_fEq (rho ux uy : ℚ) : ∑ i : Fin 9, fEq rho ux uy i = rho := by
  rw [sum_dirs]
  simp only [fEq, w_eq, cx_eq, cy_eq]
  push_cast
  ring

theorem density_collide (n : Node) : density (collide n).f = n.rho := by
  unfold density
  have : ∀ i, (collide n).f i = fEq n.rho n.ux n.uy i := by
    intro i
    rw [collide_f]
    unfold TAU
    ring
  simp only [this]
  exact sum_fEq _ _ _

theorem density_collideNode (n : Node) : density (collideNode n).f = density n.f := by
  unfold collideNode
  split_ifs
  · rfl
  · rw [density_collide, recover_rho]

theorem density_collisionSweep (g : Lattice) (k : Nat) :
    density (collisionSweep g k).f = density (g k).f := by
  rw [collisionSweep_apply]
  split_ifs
  · exact density_collideNode _
  · rfl

theorem upstream_lt (p : Nat × Fin 9) (hp : p.1 < 60000) : (upstream p).1 < 60000 := by
  unfold upstream
  split_ifs with h
  · unfold inDomain at h
    simp only [WIDTH, HEIGHT] at h
    show idx _ _ < 60000
    unfold idx
    simp only [WIDTH]
    omega
  · exact hp

theorem downstream_lt (p : Nat × Fin 9) (hp : p.1 < 60000) : (downstream p).1 < 60000 := by
  unfold downstream
  split_ifs with h
  · unfold inDomain at h
    simp only [WIDTH, HEIGHT] at h
    show idx _ _ < 60000
    unfold idx
    simp only [WIDTH]
    omega
  · exact hp

theorem downstream_upstream (p : Nat × Fin 9) (hp : p.1 < 60000) :
    downstream (upstream p) = p := by
  obtain ⟨k, j⟩ := p
  simp only at hp
  unfold upstream
  simp only
  by_cases h : inDomain (((k % 400 : Nat) : Int) - cx j) (((k / 400 : Nat) : Int) - cy j)
  · rw [if_pos h]
    have hd := h
    unfold inDomain at hd
    simp only [WIDTH, HEIGHT] at hd
    unfold downstream
    simp only
    have e1 : (((idx (((k % 400 : Nat) : Int) - cx j) (((k / 400 : Nat) : Int) - cy j)) % 400
        : Nat) : Int) + cx j = ((k % 400 : Nat) : Int) := by
      unfold idx; simp only [WIDTH]; omega
    have e2 : (((idx (((k % 400 : Nat) : Int) - cx j) (((k / 400 : Nat) : Int) - cy j)) / 400
        : Nat) : Int) + cy j = ((k / 400 : Nat) : Int) := by
      unfold idx; simp only [WIDTH]; omega
    rw [e1, e2, if_pos, idx_nat]
    · have : k / 400 * 400 + k % 400 = k := by omega
      rw [this]
    · unfold inDomain; simp only [WIDTH, HEIGHT]; omega
  · rw [if_neg h]
    unfold downstream
    simp only
    rw [cx_opposite, cy_opposite, ← sub_eq_add_neg, ← sub_eq_add_neg, if_neg h,
      opposite_opposite]

theorem upstream_downstream (p : Nat × Fin 9) (hp : p.1 < 60000) :
    upstream (downstream p) = p := by
  obtain ⟨k, j⟩ := p
  simp only at hp
  unfold downstream
  simp only
  by_cases h : inDomain (((k % 400 : Nat) : Int) + cx j) (((k / 400 : Nat) : Int) + cy j)
  · rw [if_pos h]
    have hd := h
    unfold inDomain at hd
    simp only [WIDTH, HEIGHT] at hd
    unfold upstream
    simp only
    have e1 : (((idx (((k % 400 : Nat) : Int) + cx j) (((k / 400 : Nat) : Int) + cy j)) % 400
        : Nat) : Int) - cx j = ((k % 400 : Nat) : Int) := by
      unfold idx; simp only [WIDTH]; omega
    have e2 : (((idx (((k % 400 : Nat) : Int) + cx j) (((k / 400 : Nat) : Int) + cy j)) / 400
        : Nat) : Int) - cy j = ((k / 400 : Nat) : Int) := by
      unfold idx; simp only [WIDTH]; omega
    rw [e1, e2, if_pos, idx_nat]
    · have : k / 400 * 400 + k % 400 = k := by omega
      rw [this]
    · unfold inDomain; simp only [WIDTH, HEIGHT]; omega
  · rw [if_neg h]
    unfold upstream
    simp only
    rw [cx_opposite, cy_opposite, sub_neg_eq_add, sub_neg_eq_add, if_neg h,
      opposite_opposite]

/-- Without walls, `step()` moves into each slot the post-collision value of
its upstream slot. -/
theorem step_f_nowall (g : Lattice) (hnw : ∀ k, k < 60000 → (g k).isWall = false)
    (k : Nat) (hk : k < 60000) (j : Fin 9) :
    (step g k).f j = (collisionSweep g (upstream (k, j)).1).f (upstream (k, j)).2 := by
  have hx : k % 400 < 400 := by omega
  have hy : k / 400 < 150 := by omega
  have hkk : idx ((k % 400 : Nat) : Int) ((k / 400 : Nat) : Int) = k := by
    rw [idx_nat]; omega
  have hK : (getNode g ((k % 400 : Nat) : Int) ((k / 400 : Nat) : Int)).isWall = false := by
    unfold getNode; rw [hkk]; exact hnw k hk
  have h1 := step_f g (k % 400) (k / 400) hx hy hK
  unfold getNode at h1
  rw [hkk] at h1
  rw [h1]
  unfold upstream
  simp only
  by_cases h : inDomain (((k % 400 : Nat) : Int) - cx j) (((k / 400 : Nat) : Int) - cy j)
  · rw [if_pos h]
    have hd := h
    unfold inDomain at hd
    simp only [WIDTH, HEIGHT] at hd
    have hM : (getNode (collisionSweep g) (((k % 400 : Nat) : Int) - cx j)
        (((k / 400 : Nat) : Int) - cy j)).isWall = false := by
      rw [collisionSweep_isWall_coord]
      unfold getNode
      apply hnw
      unfold idx; simp only [WIDTH]; omega
    have h2 := stream_slot_fluid (collisionSweep g) (k % 400) (k / 400) hx hy j h hM
      (by rw [collisionSweep_isWall_coord]; exact hK)
    unfold getNode at h2
    rw [hkk] at h2
    dsimp only
    rw [h2]
  · rw [if_neg h]
    have h2 := stream_slot_outside (collisionSweep g) (k % 400) (k / 400) hx hy j h
    unfold getNode at h2
    rw [hkk] at h2
    dsimp only
    rw [h2]

theorem sum_upstream (n : Nat) (hn : n = 60000) (F : Nat × Fin 9 → ℚ) :
    ∑ p ∈ Finset.range n ×ˢ (Finset.univ : Finset (Fin 9)), F (upstream p)
      = ∑ p ∈ Finset.range n ×ˢ (Finset.univ : Finset (Fin 9)), F p := by
  apply Finset.sum_nbij' upstream downstream
  · intro p hp
    rw [Finset.mem_product, Finset.mem_range] at hp ⊢
    rw [hn] at hp ⊢
    exact ⟨upstream_lt p hp.1, Finset.mem_univ _⟩
  · intro p hp
    rw [Finset.mem_product, Finset.mem_range] at hp ⊢
    rw [hn] at hp ⊢
    exact ⟨downstream_lt p hp.1, Finset.mem_univ _⟩
  · intro p hp
    rw [Finset.mem_product, Finset.mem_range, hn] at hp
    exact downstream_upstream p hp.1
  · intro p hp
    rw [Finset.mem_product, Finset.mem_range, hn] at hp
    exact upstream_downstream p hp.1
  · intro p _
    rfl

theorem totalMass_step (g : Lattice) (hnw : ∀ k, k < 60000 → (g k).isWall = false) :
    totalMass (step g) = totalMass g := by
  unfold totalMass density
  have e : WIDTH * HEIGHT = 60000 := by norm_num [WIDTH, HEIGHT]
  have h1 : ∀ k ∈ Finset.range (WIDTH * HEIGHT),
      ∑ j : Fin 9, (step g k).f j
        = ∑ j : Fin 9, (collisionSweep g (upstream (k, j)).1).f (upstream (k, j)).2 := by
    intro k hk
    apply Finset.sum_congr rfl
    intro j _
    rw [Finset.mem_range, e] at hk
    exact step_f_nowall g hnw k hk j
  rw [Finset.sum_congr rfl h1]
  have h2 := sum_upstream (WIDTH * HEIGHT) e (fun p => (collisionSweep g p.1).f p.2)
  rw [Finset.sum_product, Finset.sum_product] at h2
  rw [h2]
  apply Finset.sum_congr rfl
  intro k _
  have h3 := density_collisionSweep g k
  unfold density at h3
  rw [h3]

/-! ## Wall nodes as streaming sources -/

/-- Writing one slot of `f` leaves every wall flag as it was. -/
theorem setF_isWall (g : Lattice) (t : Nat) (s : Fin 9) (v : ℚ) (k : Nat) :
    (setF g t s v k).isWall = (g k).isWall := by
  unfold setF
  by_cases h : k = t
  · subst h; simp
  · rw [Function.update_noteq h]

theorem setF_other (g : Lattice) (t : Nat) (s : Fin 9) (v : ℚ) (k : Nat) (h : k ≠ t) :
    setF g t s v k = g k := by
  unfold setF
  exact Function.update_noteq h _ _

theorem setF_f_same (g : Lattice) (t : Nat) (s : Fin 9) (v : ℚ) :
    (setF g t s v t).f s = v := by
  unfold setF
  simp

/-- The collision sweep leaves a wall node as it is. -/
theorem collisionSweep_wall (g : Lattice) (x y : Int)
    (hw : (getNode g x y).isWall = true) :
    getNode (collisionSweep g) x y = getNode g x y := by
  unfold getNode at hw ⊢
  rw [collisionSweep_apply]
  split_ifs
  · unfold collideNode
    rw [if_pos hw]
  · rfl

/-- A fluid node at `(199,10)` with a wall at `(200,10)`: after `step()` the
slot `f[3]` of the fluid node holds the `f[3]` of the wall node. -/
theorem step_east_wall (g : Lattice)
    (hK : (getNode g (199 : Nat) (10 : Nat)).isWall = false)
    (hM : (getNode g (200 : Nat) (10 : Nat)).isWall = true) :
    (getNode (stream (collisionSweep g)) (199 : Nat) (10 : Nat)).f_new 3
      = (getNode g (200 : Nat) (10 : Nat)).f 3 ∧
    (getNode (step g) (199 : Nat) (10 : Nat)).f 3
      = (getNode g (200 : Nat) (10 : Nat)).f 3 := by
  have e3 : ((199 : Nat) : Int) - cx 3 = ((200 : Nat) : Int) := by decide
  have e4 : ((10 : Nat) : Int) - cy 3 = ((10 : Nat) : Int) := by decide
  have hslot : (getNode (stream (collisionSweep g)) (199 : Nat) (10 : Nat)).f_new 3
      = (getNode g (200 : Nat) (10 : Nat)).f 3 := by
    rw [stream_slot_wall (collisionSweep g) 199 10 (by decide) (by decide) 3
      (by unfold inDomain; decide)
      (by rw [e3, e4, collisionSweep_isWall_coord]; exact hM)
      (by rw [collisionSweep_isWall_coord]; exact hK)]
    rw [e3, e4, idx_nat, idx_nat, if_neg (by decide), collisionSweep_wall g _ _ hM]
  refine ⟨hslot, ?_⟩
  rw [step_f g 199 10 (by decide) (by decide) hK]
  exact hslot

/-- A fluid node at `(0,0)` at rest with zero density and a wall at `(1,0)`:
the collision sweep leaves the fluid node's `f` zero, and the streaming sweep
puts the wall node's `f[3]` into the fluid node's `f_new[3]`. -/
theorem stream_corner_wall (g : Lattice)
    (hK : (getNode g (0 : Nat) (0 : Nat)).isWall = false)
    (hM : (getNode g (1 : Nat) (0 : Nat)).isWall = true)
    (hf0 : ∀ i, (getNode g (0 : Nat) (0 : Nat)).f i = w i * 0) :
    (getNode (collisionSweep g) (0 : Nat) (0 : Nat)).f (opposite 3) = 0 ∧
    (getNode (stream (collisionSweep g)) (0 : Nat) (0 : Nat)).f_new 3
      = (getNode g (1 : Nat) (0 : Nat)).f 3 := by
  have e3 : ((0 : Nat) : Int) - cx 3 = ((1 : Nat) : Int) := by decide
  have e4 : ((0 : Nat) : Int) - cy 3 = ((0 : Nat) : Int) := by decide
  constructor
  · rw [collisionSweep_rest g 0 0 (by decide) (by decide) 0 hf0, mul_zero]
  · rw [stream_slot_wall (collisionSweep g) 0 0 (by decide) (by decide) 3
      (by unfold inDomain; decide)
      (by rw [e3, e4, collisionSweep_isWall_coord]; exact hM)
      (by rw [collisionSweep_isWall_coord]; exact hK)]
    rw [e3, e4, idx_nat, idx_nat, if_neg (by decide), collisionSweep_wall g _ _ hM]

/-! ## Frame facts for `init()` and wall nodes -/

/-- The node written by `init()` depends on the prior node only through `f_new`. -/
theorem initNode_congr (x y : Nat) (n1 n2 : Node) (h : n1.f_new = n2.f_new) :
    initNode x y n1 = initNode x y n2 := by
  obtain ⟨a1, a2, a3, a4, a5, a6⟩ := initNode_fields x y n1
  obtain ⟨b1, b2, b3, b4, b5, b6⟩ := initNode_fields x y n2
  apply Node.ext
  · funext i; rw [a6 i, b6 i]
  · rw [a5, b5, h]
  · rw [a2, b2]
  · rw [a3, b3]
  · rw [a4, b4]
  · rw [a1, b1]

theorem init_f_new (s : Lattice) (k : Nat) : (init s k).f_new = (s k).f_new := by
  rw [init_apply]
  split_ifs
  · exact (initNode_fields _ _ _).2.2.2.2.1
  · rfl

theorem collideNode_wall (n : Node) (h : n.isWall = true) : collideNode n = n := by
  unfold collideNode
  rw [if_pos h]

theorem commitNode_wall (n : Node) (h : n.isWall = true) : commitNode n = n := by
  rw [commitNode_eq, if_pos h]

/-- Fields of a node after `step()` that the streaming sweep does not write. -/
theorem step_wall (g : Lattice) (k : Nat) (h : (g k).isWall = true) :
    (step g k).f = (g k).f ∧ (step g k).rho = (g k).rho ∧
    (step g k).ux = (g k).ux ∧ (step g k).uy = (g k).uy := by
  have hc : collisionSweep g k = g k := by
    rw [collisionSweep_apply]
    split_ifs
    · exact collideNode_wall _ h
    · rfl
  have hs := stream_frame (collisionSweep g) k
  rw [hc] at hs
  have hw : (stream (collisionSweep g) k).isWall = true := by rw [hs.2.1, h]
  have hst : step g k = stream (collisionSweep g) k := by
    unfold step
    rw [commit_apply]
    split_ifs
    · exact commitNode_wall _ hw
    · rfl
  rw [hst]
  exact ⟨hs.1, hs.2.2.1, hs.2.2.2.1, hs.2.2.2.2⟩

/-! ## Moments of the equilibrium distribution -/

theorem sum_fEq_cx (rho ux uy : ℚ) : ∑ i : Fin 9, fEq rho ux uy i * (cx i : ℚ) = rho * ux := by
  rw [sum_dirs]
  simp only [fEq, w_eq, cx_eq, cy_eq]
  push_cast
  ring

theorem sum_fEq_cy (rho ux uy : ℚ) : ∑ i : Fin 9, fEq rho ux uy i * (cy i : ℚ) = rho * uy := by
  rw [sum_dirs]
  simp only [fEq, w_eq, cx_eq, cy_eq]
  push_cast
  ring

theorem collide_eq_fEq (n : Node) (i : Fin 9) :
    (collide n).f i = fEq n.rho n.ux n.uy i := by
  rw [collide_f]
  unfold TAU
  ring

theorem momentX_collide (n : Node) : momentX (collide n).f = n.rho * n.ux := by
  unfold momentX
  simp only [collide_eq_fEq]
  exact sum_fEq_cx _ _ _

theorem momentY_collide (n : Node) : momentY (collide n).f = n.rho * n.uy := by
  unfold momentY
  simp only [collide_eq_fEq]
  exact sum_fEq_cy _ _ _

/-- The collision sweep at a fluid node of the grid is recovery followed by collision. -/
theorem collisionSweep_fluid (g : Lattice) (x y : Nat) (hx : x < 400) (hy : y < 150)
    (hw : (getNode g x y).isWall = false) :
    getNode (collisionSweep g) x y = collide (recover (getNode g x y)) := by
  unfold getNode at hw ⊢
  rw [collisionSweep_apply, if_pos (idx_lt x y hx hy)]
  unfold collideNode
  simp [hw]

/-! ## Independence from the scratch buffer -/

/-- After the streaming sweep, every `f_new` slot of a fluid node of the grid
holds a value read from some `f`: the slot has been written. -/
theorem stream_slot_written (g0 : Lattice) (x y : Nat) (hx : x < 400) (hy : y < 150)
    (hK : (getNode g0 x y).isWall = false) (j : Fin 9) :
    (getNode (stream g0) x y).f_new j =
      if ¬ inDomain (x - cx j) (y - cy j) then (getNode g0 x y).f (opposite j)
      else if (getNode g0 (x - cx j) (y - cy j)).isWall = true then
        (if idx (x - cx j) (y - cy j) < idx x y then (getNode g0 x y).f (opposite j)
          else (getNode g0 (x - cx j) (y - cy j)).f j)
      else (getNode g0 (x - cx j) (y - cy j)).f j := by
  by_cases hin : inDomain ((x : Int) - cx j) ((y : Int) - cy j)
  · rw [if_neg (not_not.mpr hin)]
    by_cases hM : (getNode g0 ((x : Int) - cx j) ((y : Int) - cy j)).isWall = true
    · rw [if_pos hM]
      exact stream_slot_wall g0 x y hx hy j hin hM hK
    · rw [if_neg hM]
      exact stream_slot_fluid g0 x y hx hy j hin (by simpa using hM) hK
  · rw [if_pos hin]
    exact stream_slot_outside g0 x y hx hy j hin

theorem sameFrame_getNode {g1 g2 : Lattice} (h : SameFrame g1 g2) (x y : Int) :
    (getNode g1 x y).f = (getNode g2 x y).f ∧
    (getNode g1 x y).isWall = (getNode g2 x y).isWall := by
  unfold getNode
  exact ⟨(h _).1, (h _).2.1⟩

/-- The streaming sweep writes the same values into the slots of fluid nodes
whatever the scratch buffer held before. -/
theorem stream_f_new_congr {g1 g2 : Lattice} (h : SameFrame g1 g2) (x y : Nat)
    (hx : x < 400) (hy : y < 150) (hK : (getNode g1 x y).isWall = false) (j : Fin 9) :
    (getNode (stream g1) x y).f_new j = (getNode (stream g2) x y).f_new j := by
  have hK2 : (getNode g2 x y).isWall = false := by
    rw [← (sameFrame_getNode h x y).2]; exact hK
  rw [stream_slot_written g1 x y hx hy hK j, stream_slot_written g2 x y hx hy hK2 j,
    (sameFrame_getNode h x y).1, (sameFrame_getNode h _ _).1, (sameFrame_getNode h _ _).2]

theorem collideNode_congr (n1 n2 : Node) (hf : n1.f = n2.f) (hw : n1.isWall = n2.isWall)
    (hr : n1.rho = n2.rho) (hux : n1.ux = n2.ux) (huy : n1.uy = n2.uy) :
    (collideNode n1).f = (collideNode n2).f ∧
    (collideNode n1).isWall = (collideNode n2).isWall ∧
    (collideNode n1).rho = (collideNode n2).rho ∧
    (collideNode n1).ux = (collideNode n2).ux ∧
    (collideNode n1).uy = (collideNode n2).uy := by
  unfold collideNode
  rw [← hw]
  by_cases h : n1.isWall = true
  · rw [if_pos h, if_pos h]
    exact ⟨hf, hw, hr, hux, huy⟩
  · rw [if_neg h, if_neg h]
    have c1 := collide_frame (recover n1)
    have c2 := collide_frame (recover n2)
    have e1 : (recover n1).rho = (recover n2).rho := by rw [recover_rho, recover_rho, hf]
    have e2 : (recover n1).ux = (recover n2).ux := by rw [recover_ux, recover_ux, hf]
    have e3 : (recover n1).uy = (recover n2).uy := by rw [recover_uy, recover_uy, hf]
    refine ⟨?_, ?_, ?_, ?_, ?_⟩
    · funext i
      rw [collide_f, collide_f, e1, e2, e3, (recover_frame n1).1, (recover_frame n2).1, hf]
    · rw [c1.2.1, c2.2.1, (recover_frame n1).2.2, (recover_frame n2).2.2, hw]
    · rw [c1.2.2.1, c2.2.2.1, e1]
    · rw [c1.2.2.2.1, c2.2.2.2.1, e2]
    · rw [c1.2.2.2.2, c2.2.2.2.2, e3]

theorem collisionSweep_congr {g1 g2 : Lattice} (h : SameFrame g1 g2) :
    SameFrame (collisionSweep g1) (collisionSweep g2) := by
  intro k
  obtain ⟨a, b, c, d, e⟩ := h k
  rw [collisionSweep_apply, collisionSweep_apply]
  split_ifs
  · obtain ⟨p, q, r, s, t⟩ := collideNode_congr (g1 k) (g2 k) a b c d e
    exact ⟨p, q, r, s, t⟩
  · exact ⟨a, b, c, d, e⟩

theorem step_congr {g1 g2 : Lattice} (h : SameFrame g1 g2) :
    SameFrame (step g1) (step g2) := by
  intro k
  have hc := collisionSweep_congr h
  have s1 := stream_frame (collisionSweep g1) k
  have s2 := stream_frame (collisionSweep g2) k
  obtain ⟨a, b, c, d, e⟩ := hc k
  have hw12 : (stream (collisionSweep g1) k).isWall = (stream (collisionSweep g2) k).isWall := by
    rw [s1.2.1, s2.2.1, b]
  unfold step
  rw [commit_apply, commit_apply]
  by_cases hk : k < 60000
  · rw [if_pos hk, if_pos hk]
    have m1 := commitNode_frame (stream (collisionSweep g1) k)
    have m2 := commitNode_frame (stream (collisionSweep g2) k)
    refine ⟨?_, by rw [m1.1, m2.1, hw12], by rw [m1.2.1, m2.2.1, s1.2.2.1, s2.2.2.1, c],
      by rw [m1.2.2.1, m2.2.2.1, s1.2.2.2.1, s2.2.2.2.1, d],
      by rw [m1.2.2.2.1, m2.2.2.2.1, s1.2.2.2.2, s2.2.2.2.2, e]⟩
    rw [commitNode_eq, commitNode_eq, ← hw12]
    by_cases hw : (stream (collisionSweep g1) k).isWall = true
    · rw [if_pos hw, if_pos hw, s1.1, s2.1, a]
    · rw [if_neg hw, if_neg hw]
      dsimp only
      have hx : k % 400 < 400 := by omega
      have hy : k / 400 < 150 := by omega
      have hkk : idx ((k % 400 : Nat) : Int) ((k / 400 : Nat) : Int) = k := by
        rw [idx_nat]; omega
      have hK : (getNode (collisionSweep g1) ((k % 400 : Nat) : Int)
          ((k / 400 : Nat) : Int)).isWall = false := by
        unfold getNode
        rw [hkk, ← s1.2.1]
        simpa using hw
      funext j
      have := stream_f_new_congr hc (k % 400) (k / 400) hx hy hK j
      unfold getNode at this
      rw [hkk] at this
      exact this
  · rw [if_neg hk, if_neg hk]
    exact ⟨by rw [s1.1, s2.1, a], hw12, by rw [s1.2.2.1, s2.2.2.1, c],
      by rw [s1.2.2.2.1, s2.2.2.2.1, d], by rw [s1.2.2.2.2, s2.2.2.2.2, e]⟩

/-! ## The instrumented loops compute the same lattice and log only grid indices -/

theorem foldl_fst {σ β α : Type} (G : σ × β → α → σ × β) (F : σ → α → σ)
    (h : ∀ p a, (G p a).1 = F p.1 a) (L : List α) :
    ∀ p : σ × β, (L.foldl G p).1 = L.foldl F p.1 := by
  induction L with
  | nil => intro p; rfl
  | cons a L ih =>
    intro p
    rw [List.foldl_cons, List.foldl_cons, ih, h]

theorem foldl_keeps {σ α : Type} (P : σ → Prop) (G : σ → α → σ) (L : List α)
    (h : ∀ s a, a ∈ L → P s → P (G s a)) :
    ∀ s : σ, P s → P (L.foldl G s) := by
  induction L with
  | nil => intro s hs; exact hs
  | cons a L ih =>
    intro s hs
    rw [List.foldl_cons]
    exact ih (fun s b hb => h s b (List.mem_cons_of_mem _ hb)) _
      (h s a (List.mem_cons_self _ _) hs)

theorem inGrid_nat (x y : Nat) (hx : x < 400) (hy : y < 150) : InGrid (flatIndex x y) :=
  ⟨x, y, by unfold inDomain; simp only [WIDTH, HEIGHT]; omega, rfl⟩

theorem inGrid_bounds (e : Int) (h : InGrid e) : 0 ≤ e ∧ e < (WIDTH : Int) * (HEIGHT : Int) := by
  obtain ⟨x, y, hd, he⟩ := h
  unfold inDomain at hd
  unfold flatIndex at he
  simp only [WIDTH, HEIGHT] at hd he ⊢
  omega

theorem inGrid_index (k : Nat) (hk : k < 60000) : InGrid (k : Int) := by
  refine ⟨((k % 400 : Nat) : Int), ((k / 400 : Nat) : Int), ?_, ?_⟩
  · unfold inDomain; simp only [WIDTH, HEIGHT]; omega
  · unfold flatIndex; simp only [WIDTH]; omega

/-- Appending grid indices to a log of grid indices. -/
theorem logged_append (l m : List Int) (hl : ∀ e ∈ l, InGrid e) (hm : ∀ e ∈ m, InGrid e) :
    ∀ e ∈ l ++ m, InGrid e := by
  intro e he
  rcases List.mem_append.mp he with h | h
  · exact hl e h
  · exact hm e h

theorem initLog_fst (p : Lattice × List Int) : (initLog p).1 = init p.1 := by
  unfold initLog init
  apply foldl_fst
  intro p y
  unfold initRowLog initRow
  apply foldl_fst
  intro p x
  rfl

theorem collisionSweepLog_fst (p : Lattice × List Int) :
    (collisionSweepLog p).1 = collisionSweep p.1 := by
  unfold collisionSweepLog collisionSweep
  apply foldl_fst
  intro p y
  unfold collideRowLog collideRow
  apply foldl_fst
  intro p x
  rfl

theorem streamDirLog_fst (x y : Nat) (p : Lattice × List Int) (i : Fin 9) :
    (streamDirLog x y p i).1 = streamDir x y p.1 i := by
  unfold streamDirLog streamDir
  simp only
  split_ifs <;> rfl

theorem streamLog_fst (p : Lattice × List Int) : (streamLog p).1 = stream p.1 := by
  unfold streamLog stream
  apply foldl_fst
  intro p y
  unfold streamRowLog streamRow
  apply foldl_fst
  intro p x
  unfold streamNodeLog streamNode
  rw [foldl_fst (streamDirLog x y) (streamDir x y) (streamDirLog_fst x y)]

theorem commitLog_fst (p : Lattice × List Int) : (commitLog p).1 = commit p.1 := by
  unfold commitLog commit
  apply foldl_fst
  intro p k
  rfl

theorem stepLog_fst (g : Lattice) : (stepLog g).1 = step g := by
  unfold stepLog step
  rw [commitLog_fst, streamLog_fst, collisionSweepLog_fst]

theorem initLog_inGrid (p : Lattice × List Int) (hp : ∀ e ∈ p.2, InGrid e) :
    ∀ e ∈ (initLog p).2, InGrid e := by
  unfold initLog
  refine foldl_keeps (fun p : Lattice × List Int => ∀ e ∈ p.2, InGrid e) _ _ ?_ p hp
  intro p y hy hp
  unfold initRowLog
  refine foldl_keeps (fun p : Lattice × List Int => ∀ e ∈ p.2, InGrid e) _ _ ?_ p hp
  intro p x hx hp
  have hx4 : x < 400 := List.mem_range.mp hx
  have hy4 : y < 150 := List.mem_range.mp hy
  exact logged_append _ _ hp (by
    intro e he
    rw [List.mem_singleton] at he
    rw [he]; exact inGrid_nat x y hx4 hy4)

theorem collisionSweepLog_inGrid (p : Lattice × List Int) (hp : ∀ e ∈ p.2, InGrid e) :
    ∀ e ∈ (collisionSweepLog p).2, InGrid e := by
  unfold collisionSweepLog
  refine foldl_keeps (fun p : Lattice × List Int => ∀ e ∈ p.2, InGrid e) _ _ ?_ p hp
  intro p y hy hp
  unfold collideRowLog
  refine foldl_keeps (fun p : Lattice × List Int => ∀ e ∈ p.2, InGrid e) _ _ ?_ p hp
  intro p x hx hp
  have hx4 : x < 400 := List.mem_range.mp hx
  have hy4 : y < 150 := List.mem_range.mp hy
  exact logged_append _ _ hp (by
    intro e he
    rw [List.mem_singleton] at he
    rw [he]; exact inGrid_nat x y hx4 hy4)

/-- One iteration of the direction loop logs the node's own index, or the
neighbour's index after the bounds test has placed the neighbour inside the domain. -/
theorem streamDirLog_entries (x y : Nat) (p : Lattice × List Int) (i : Fin 9) (e : Int)
    (he : e ∈ (streamDirLog x y p i).2) :
    e ∈ p.2 ∨ e = flatIndex x y ∨
      (inDomain (x + cx i) (y + cy i) ∧ e = flatIndex (x + cx i) (y + cy i)) := by
  unfold streamDirLog at he
  simp only at he
  by_cases h1 : (x : Int) + cx i < 0 ∨ (x : Int) + cx i ≥ (WIDTH : Int) ∨
      (y : Int) + cy i < 0 ∨ (y : Int) + cy i ≥ (HEIGHT : Int)
  · rw [if_pos h1] at he
    rcases List.mem_append.mp he with h | h
    · exact Or.inl h
    · exact Or.inr (Or.inl (List.mem_singleton.mp h))
  · rw [if_neg h1] at he
    have hd : inDomain ((x : Int) + cx i) ((y : Int) + cy i) := by
      unfold inDomain; omega
    by_cases h2 : (getNode p.1 ((x : Int) + cx i) ((y : Int) + cy i)).isWall = true
    · rw [if_pos h2] at he
      rcases List.mem_append.mp he with h | h
      · exact Or.inl h
      · rcases List.mem_cons.mp h with h | h
        · exact Or.inr (Or.inr ⟨hd, h⟩)
        · exact Or.inr (Or.inl (List.mem_singleton.mp h))
    · rw [if_neg h2] at he
      rcases List.mem_append.mp he with h | h
      · exact Or.inl h
      · exact Or.inr (Or.inr ⟨hd, List.mem_singleton.mp h⟩)

theorem streamLog_inGrid (p : Lattice × List Int) (hp : ∀ e ∈ p.2, InGrid e) :
    ∀ e ∈ (streamLog p).2, InGrid e := by
  unfold streamLog
  refine foldl_keeps (fun p : Lattice × List Int => ∀ e ∈ p.2, InGrid e) _ _ ?_ p hp
  intro p y hy hp
  unfold streamRowLog
  refine foldl_keeps (fun p : Lattice × List Int => ∀ e ∈ p.2, InGrid e) _ _ ?_ p hp
  intro p x hx hp
  have hx4 : x < 400 := List.mem_range.mp hx
  have hy4 : y < 150 := List.mem_range.mp hy
  unfold streamNodeLog
  refine foldl_keeps (fun p : Lattice × List Int => ∀ e ∈ p.2, InGrid e) _ _ ?_ _ ?_
  · intro q i _ hq e he
    rcases streamDirLog_entries x y q i e he with h | h | ⟨hd, h⟩
    · exact hq e h
    · rw [h]; exact inGrid_nat x y hx4 hy4
    · exact ⟨_, _, hd, h⟩
  · exact logged_append _ _ hp (by
      intro e he
      rw [List.mem_singleton] at he
      rw [he]; exact inGrid_nat x y hx4 hy4)

theorem commitLog_inGrid (p : Lattice × List Int) (hp : ∀ e ∈ p.2, InGrid e) :
    ∀ e ∈ (commitLog p).2, InGrid e := by
  unfold commitLog
  refine foldl_keeps (fun p : Lattice × List Int => ∀ e ∈ p.2, InGrid e) _ _ ?_ p hp
  intro p k hk hp
  have hk6 : k < 60000 := by
    have := List.mem_range.mp hk
    simp only [WIDTH, HEIGHT] at this
    omega
  exact logged_append _ _ hp (by
    intro e he
    rw [List.mem_singleton] at he
    rw [he]; exact inGrid_index k hk6)

theorem stepLog_inGrid (g : Lattice) : ∀ e ∈ (stepLog g).2, InGrid e := by
  unfold stepLog
  apply commitLog_inGrid
  apply streamLog_inGrid
  apply collisionSweepLog_inGrid
  intro e he
  exact absurd he (List.not_mem_nil e)

/-! ## Claims -/

/-- C1 (code defect). Wall bounce-back is overwritten when the wall neighbour
comes later in the sweep. In the state produced by `init()`, node `(199,10)` is
fluid and its east neighbour `(200,10)` is a barrier wall inside the domain.
After the collision sweep `(199,10).f[1] = 1/9`, yet after the streaming sweep
`(199,10).f_new[opposite[1]]` is `49/450 = w[3] * 0.98`, the stale value of the
wall node's own `f[3]`, and `step()` commits that value to `f[opposite[1]]`. -/
theorem C1_wall_bounce_back_overwritten :
    (getNode (init zeroLattice) (199 : Nat) (10 : Nat)).isWall = false ∧
    inDomain ((199 : Nat) + cx 1) ((10 : Nat) + cy 1) ∧
    (getNode (init zeroLattice) ((199 : Nat) + cx 1) ((10 : Nat) + cy 1)).isWall = true ∧
    (getNode (collisionSweep (init zeroLattice)) (199 : Nat) (10 : Nat)).f 1 = 1 / 9 ∧
    (getNode (stream (collisionSweep (init zeroLattice))) (199 : Nat) (10 : Nat)).f_new
      (opposite 1) = 49 / 450 ∧
    (getNode (step (init zeroLattice)) (199 : Nat) (10 : Nat)).f (opposite 1) = 49 / 450 := by
  have hK : (getNode (init zeroLattice) (199 : Nat) (10 : Nat)).isWall = false := by
    rw [init_isWall zeroLattice 199 10 (by decide) (by decide)]; decide
  have e1 : ((199 : Nat) : Int) + cx 1 = ((200 : Nat) : Int) := by decide
  have e2 : ((10 : Nat) : Int) + cy 1 = ((10 : Nat) : Int) := by decide
  have e3 : ((199 : Nat) : Int) - cx 3 = ((200 : Nat) : Int) := by decide
  have e4 : ((10 : Nat) : Int) - cy 3 = ((10 : Nat) : Int) := by decide
  have hM : (getNode (init zeroLattice) (200 : Nat) (10 : Nat)).isWall = true := by
    rw [init_isWall zeroLattice 200 10 (by decide) (by decide)]; decide
  have hslot : (getNode (stream (collisionSweep (init zeroLattice))) (199 : Nat)
      (10 : Nat)).f_new (opposite 1) = 49 / 450 := by
    have ho : opposite 1 = 3 := by decide
    rw [ho, stream_slot_wall (collisionSweep (init zeroLattice)) 199 10 (by decide) (by decide) 3
      (by unfold inDomain; decide)
      (by rw [e3, e4, collisionSweep_isWall_coord]; exact hM)
      (by rw [collisionSweep_isWall_coord]; exact hK)]
    rw [e3, e4, idx_nat, idx_nat, if_neg (by decide),
      collisionSweep_init_f zeroLattice 200 10 (by decide) (by decide)]
    norm_num [w_eq]
  refine ⟨hK, by unfold inDomain; decide, by rw [e1, e2]; exact hM, ?_, hslot, ?_⟩
  · rw [collisionSweep_init_f zeroLattice 199 10 (by decide) (by decide)]
    norm_num [w_eq]
  · rw [step_f (init zeroLattice) 199 10 (by decide) (by decide) hK]
    exact hslot

/-- C2 (code defect). Full reflection fails at an enclosed node. In
`enclosedLattice` the node `(0,0)` is fluid and each of its eight neighbours is
a wall or lies outside the domain. Its post-collision `f[opposite[3]]` is `0`,
yet after the streaming sweep `f_new[3]` is `1`: the wall node `(1,0)`, swept
after `(0,0)`, streamed its own `f[3]` into the slot and overwrote the
bounce-back value. -/
theorem C2_reflection_overwritten :
    (getNode enclosedLattice (0 : Nat) (0 : Nat)).isWall = false ∧
    (∀ i : Fin 9, i ≠ 0 →
      ¬ inDomain ((0 : Nat) + cx i) ((0 : Nat) + cy i) ∨
      (getNode enclosedLattice ((0 : Nat) + cx i) ((0 : Nat) + cy i)).isWall = true) ∧
    (getNode (collisionSweep enclosedLattice) (0 : Nat) (0 : Nat)).f (opposite 3) = 0 ∧
    (getNode (stream (collisionSweep enclosedLattice)) (0 : Nat) (0 : Nat)).f_new 3 = 1 := by
  have hK : (getNode enclosedLattice (0 : Nat) (0 : Nat)).isWall = false := rfl
  have hM : (getNode enclosedLattice (1 : Nat) (0 : Nat)).isWall = true := rfl
  have hf0 : ∀ i, (getNode enclosedLattice (0 : Nat) (0 : Nat)).f i = w i * 0 :=
    fun i => (mul_zero (w i)).symm
  have hf1 : (getNode enclosedLattice (1 : Nat) (0 : Nat)).f 3 = 1 := rfl
  refine ⟨hK, ?_, (stream_corner_wall enclosedLattice hK hM hf0).1,
    (stream_corner_wall enclosedLattice hK hM hf0).2.trans hf1⟩
  intro i hi
  fin_cases i
  · exact absurd rfl hi
  all_goals first
    | (left; unfold inDomain; decide)
    | (right; rfl)

/-- C3. Mass conservation without walls: for every lattice state in which no
node of the grid is flagged as a wall (arbitrary `f` values, exact arithmetic,
`TAU = 1`), one `step()` leaves the total `Σ_nodes Σ_i f[i]` unchanged, and so
does any number of `step()` calls. -/
theorem C3_mass_conservation (g : Lattice)
    (hnw : ∀ k, k < WIDTH * HEIGHT → (g k).isWall = false) :
    totalMass (step g) = totalMass g ∧ ∀ n : Nat, totalMass (step^[n] g) = totalMass g := by
  have e : WIDTH * HEIGHT = 60000 := by norm_num [WIDTH, HEIGHT]
  rw [e] at hnw
  refine ⟨totalMass_step g hnw, ?_⟩
  intro n
  induction n with
  | zero => rfl
  | succ n ih =>
    rw [Function.iterate_succ_apply', totalMass_step (step^[n] g), ih]
    intro k hk
    rw [iterate_step_isWall]
    exact hnw k hk

/-- Witness for C3: the wall-free lattice at rest. -/
theorem C3_mass_conservation_witness :
    totalMass (step restLattice) = totalMass restLattice ∧
    ∀ n : Nat, totalMass (step^[n] restLattice) = totalMass restLattice :=
  C3_mass_conservation restLattice (fun _ _ => rfl)

/-- C4 (code defect). Wall data reaches fluid nodes. The state produced by
`init()` and the same state with the slot `f[3]` of the wall node `(200,10)`
set to `0` have the same wall flags and agree on every field of every non-wall
node, yet after one `step()` the fluid node `(199,10)` holds `f[3] = 49/450` in
the first and `f[3] = 0` in the second. -/
theorem C4_wall_values_leak :
    (∀ k, (setF (init zeroLattice) (idx (200 : Nat) (10 : Nat)) 3 0 k).isWall
        = (init zeroLattice k).isWall) ∧
    (∀ k, (init zeroLattice k).isWall = false →
      setF (init zeroLattice) (idx (200 : Nat) (10 : Nat)) 3 0 k = init zeroLattice k) ∧
    (getNode (init zeroLattice) (199 : Nat) (10 : Nat)).isWall = false ∧
    (getNode (step (init zeroLattice)) (199 : Nat) (10 : Nat)).f 3 = 49 / 450 ∧
    (getNode (step (setF (init zeroLattice) (idx (200 : Nat) (10 : Nat)) 3 0))
      (199 : Nat) (10 : Nat)).f 3 = 0 := by
  have hK : (getNode (init zeroLattice) (199 : Nat) (10 : Nat)).isWall = false := by
    rw [init_isWall zeroLattice 199 10 (by decide) (by decide)]; decide
  have hM : (getNode (init zeroLattice) (200 : Nat) (10 : Nat)).isWall = true := by
    rw [init_isWall zeroLattice 200 10 (by decide) (by decide)]; decide
  have hv : (getNode (init zeroLattice) (200 : Nat) (10 : Nat)).f 3 = 49 / 450 := by
    rw [init_f zeroLattice 200 10 (by decide) (by decide)]
    norm_num [w_eq]
  have hK2 : (getNode (setF (init zeroLattice) (idx (200 : Nat) (10 : Nat)) 3 0)
      (199 : Nat) (10 : Nat)).isWall = false :=
    (setF_isWall (init zeroLattice) _ 3 0 _).trans hK
  have hM2 : (getNode (setF (init zeroLattice) (idx (200 : Nat) (10 : Nat)) 3 0)
      (200 : Nat) (10 : Nat)).isWall = true :=
    (setF_isWall (init zeroLattice) _ 3 0 _).trans hM
  refine ⟨fun k => setF_isWall _ _ _ _ k, ?_, hK,
    (step_east_wall (init zeroLattice) hK hM).2.trans hv,
    (step_east_wall _ hK2 hM2).2.trans (setF_f_same (init zeroLattice) _ 3 0)⟩
  intro k hk
  apply setF_other
  intro h
  subst h
  exact absurd (hM.symm.trans hk) (by decide)

/-- C5. Normal streaming: for every lattice state, every non-wall source node
`S = (x, y)` and every direction `i` whose destination `D = S + (cx[i], cy[i])`
lies inside the domain and is not a wall, after one `step()` `D.f[i]` equals
the value `S.f[i]` held when streaming began (the post-collision value), which
is also what the streaming sweep left in `D.f_new[i]`; the iteration of the
streaming loop for `(S, i)` is the single write `D.f_new[i] = S.f[i]`, and for
`i != 0` it leaves the node `S` untouched. -/
theorem C5_normal_streaming (g : Lattice) (x y : Nat) (i : Fin 9)
    (hx : x < WIDTH) (hy : y < HEIGHT)
    (hS : (getNode g x y).isWall = false)
    (hD : inDomain (x + cx i) (y + cy i))
    (hDw : (getNode g (x + cx i) (y + cy i)).isWall = false) :
    (getNode (step g) (x + cx i) (y + cy i)).f i = (getNode (collisionSweep g) x y).f i ∧
    (getNode (stream (collisionSweep g)) (x + cx i) (y + cy i)).f_new i
      = (getNode (collisionSweep g) x y).f i ∧
    (∀ g1 : Lattice, (getNode g1 (x + cx i) (y + cy i)).isWall = false →
      streamDir x y g1 i
        = setFNew g1 (idx (x + cx i) (y + cy i)) i ((getNode g1 x y).f i) ∧
      (i ≠ 0 → streamDir x y g1 i (idx x y) = g1 (idx x y))) := by
  have hd := hD
  unfold inDomain at hd
  simp only [WIDTH, HEIGHT] at hd hx hy
  -- the destination in natural-number coordinates
  obtain ⟨dx, hdx⟩ : ∃ dx : Nat, (dx : Int) = x + cx i := ⟨((x : Int) + cx i).toNat, by omega⟩
  obtain ⟨dy, hdy⟩ : ∃ dy : Nat, (dy : Int) = y + cy i := ⟨((y : Int) + cy i).toNat, by omega⟩
  have hdx4 : dx < 400 := by omega
  have hdy4 : dy < 150 := by omega
  have ex : (dx : Int) - cx i = x := by omega
  have ey : (dy : Int) - cy i = y := by omega
  have hslot : (getNode (stream (collisionSweep g)) (x + cx i) (y + cy i)).f_new i
      = (getNode (collisionSweep g) x y).f i := by
    rw [← hdx, ← hdy]
    have := stream_slot_fluid (collisionSweep g) dx dy hdx4 hdy4 i
      (by rw [ex, ey]; unfold inDomain; simp only [WIDTH, HEIGHT]; omega)
      (by rw [ex, ey, collisionSweep_isWall_coord]; exact hS)
      (by rw [hdx, hdy, collisionSweep_isWall_coord]; exact hDw)
    rw [this, ex, ey]
  refine ⟨?_, hslot, ?_⟩
  · rw [← hslot, ← hdx, ← hdy, step_f g dx dy hdx4 hdy4 (by rw [hdx, hdy]; exact hDw)]
  · intro g1 hw1
    have hnb : ¬ bounces g1 x y i := by
      rintro (hb | hb)
      · exact hb hD
      · rw [hw1] at hb; exact absurd hb (by decide)
    have heq : streamDir x y g1 i
        = setFNew g1 (idx (x + cx i) (y + cy i)) i ((getNode g1 x y).f i) := by
      rw [streamDir_eq, if_neg hnb]
    refine ⟨heq, ?_⟩
    intro hi
    rw [heq]
    unfold setFNew
    apply Function.update_noteq
    intro hc
    rw [idx_nat] at hc
    unfold idx at hc
    simp only [WIDTH] at hc
    have h0 : cx i = 0 ∧ cy i = 0 := by omega
    exact hi (rest_of_zero i h0.1 h0.2)

/-- Witness for C5: source node (5,7) of the initial lattice, direction 1 (east). -/
theorem C5_normal_streaming_witness :
    (getNode (step (init zeroLattice)) ((5 : Nat) + cx 1) ((7 : Nat) + cy 1)).f 1
      = (getNode (collisionSweep (init zeroLattice)) (5 : Nat) (7 : Nat)).f 1 :=
  (C5_normal_streaming (init zeroLattice) 5 7 1 (by decide) (by decide)
    (by rw [init_isWall zeroLattice 5 7 (by decide) (by decide)]; decide)
    (by unfold inDomain; decide)
    (by
      have e1 : ((5 : Nat) : Int) + cx 1 = ((6 : Nat) : Int) := by decide
      have e2 : ((7 : Nat) : Int) + cy 1 = ((7 : Nat) : Int) := by decide
      rw [e1, e2, init_isWall zeroLattice 6 7 (by decide) (by decide)]; decide)).1

/-- C6. Out-of-domain bounce-back: for every lattice state, every non-wall node
`N = (x, y)` and every direction `i` such that `N + (cx[i], cy[i])` lies outside
`[0,WIDTH) x [0,HEIGHT)`, after one `step()` `N.f[opposite[i]]` equals the value
`N.f[i]` held when streaming began. The loop iteration for `(N, i)` is the
ordinary write `N.f_new[opposite[i]] = N.f[i]` at an index inside the grid;
`step` is a total function, there is no failure path. -/
theorem C6_out_of_domain_bounce_back (g : Lattice) (x y : Nat) (i : Fin 9)
    (hx : x < WIDTH) (hy : y < HEIGHT)
    (hN : (getNode g x y).isWall = false)
    (hout : ¬ inDomain (x + cx i) (y + cy i)) :
    (getNode (step g) x y).f (opposite i) = (getNode (collisionSweep g) x y).f i ∧
    (∀ g1 : Lattice,
      streamDir x y g1 i = setFNew g1 (idx x y) (opposite i) ((getNode g1 x y).f i)) ∧
    idx x y < WIDTH * HEIGHT := by
  simp only [WIDTH, HEIGHT] at hx hy
  refine ⟨?_, ?_, idx_lt x y hx hy⟩
  · rw [step_f g x y hx hy hN, stream_slot_outside (collisionSweep g) x y hx hy (opposite i),
      opposite_opposite]
    rw [cx_opposite, cy_opposite, sub_neg_eq_add, sub_neg_eq_add]
    exact hout
  · intro g1
    have hb : bounces g1 x y i := Or.inl hout
    rw [streamDir_eq, if_pos hb]

/-- Witness for C6: node (0,7) of the initial lattice, direction 3 (west). -/
theorem C6_out_of_domain_bounce_back_witness :
    (getNode (step (init zeroLattice)) (0 : Nat) (7 : Nat)).f (opposite 3)
      = (getNode (collisionSweep (init zeroLattice)) (0 : Nat) (7 : Nat)).f 3 :=
  (C6_out_of_domain_bounce_back (init zeroLattice) 0 7 3 (by decide) (by decide)
    (by rw [init_isWall zeroLattice 0 7 (by decide) (by decide)]; decide)
    (by unfold inDomain; decide)).1

/-- C7. Macroscopic recovery: after one `step()` from any lattice state, every
non-wall node has `rho = Σ_i f0[i]`, where `f0` is the node's `f` before the
step; if that sum is positive then `ux = (Σ_i f0[i]*cx[i]) / rho` and
`uy = (Σ_i f0[i]*cy[i]) / rho`, and if it is not positive then `ux = uy = 0`. -/
theorem C7_macroscopic_recovery (g : Lattice) (x y : Nat)
    (hx : x < WIDTH) (hy : y < HEIGHT) (hw : (getNode g x y).isWall = false) :
    (getNode (step g) x y).rho = density (getNode g x y).f ∧
    (density (getNode g x y).f > 0 →
      (getNode (step g) x y).ux = momentX (getNode g x y).f / (getNode (step g) x y).rho ∧
      (getNode (step g) x y).uy = momentY (getNode g x y).f / (getNode (step g) x y).rho) ∧
    (density (getNode g x y).f ≤ 0 →
      (getNode (step g) x y).ux = 0 ∧ (getNode (step g) x y).uy = 0) := by
  obtain ⟨h1, h2, h3⟩ := step_fields g x y hx hy hw
  rw [h1, h2, h3, recover_rho, recover_ux, recover_uy]
  refine ⟨rfl, ?_, ?_⟩
  · intro hpos
    rw [if_pos hpos, if_pos hpos]
    exact ⟨rfl, rfl⟩
  · intro hle
    rw [if_neg (not_lt.mpr hle), if_neg (not_lt.mpr hle)]
    exact ⟨rfl, rfl⟩

/-- Witness for C7: node (5,7) of the initial lattice. -/
theorem C7_macroscopic_recovery_witness :
    (getNode (step (init zeroLattice)) (5 : Nat) (7 : Nat)).rho
      = density (getNode (init zeroLattice) (5 : Nat) (7 : Nat)).f ∧
    (density (getNode (init zeroLattice) (5 : Nat) (7 : Nat)).f > 0 →
      (getNode (step (init zeroLattice)) (5 : Nat) (7 : Nat)).ux
        = momentX (getNode (init zeroLattice) (5 : Nat) (7 : Nat)).f
          / (getNode (step (init zeroLattice)) (5 : Nat) (7 : Nat)).rho ∧
      (getNode (step (init zeroLattice)) (5 : Nat) (7 : Nat)).uy
        = momentY (getNode (init zeroLattice) (5 : Nat) (7 : Nat)).f
          / (getNode (step (init zeroLattice)) (5 : Nat) (7 : Nat)).rho) ∧
    (density (getNode (init zeroLattice) (5 : Nat) (7 : Nat)).f ≤ 0 →
      (getNode (step (init zeroLattice)) (5 : Nat) (7 : Nat)).ux = 0 ∧
      (getNode (step (init zeroLattice)) (5 : Nat) (7 : Nat)).uy = 0) :=
  C7_macroscopic_recovery (init zeroLattice) 5 7 (by decide) (by decide)
    (by rw [init_isWall zeroLattice 5 7 (by decide) (by decide)]; decide)

/-- C8. Equilibrium is a fixed point of collision: for every density value
`rho` and every non-wall node of the lattice whose `f[i]` equals `w[i] * rho`
for all `i`, the recovery and collision sweep of `step()` leaves every `f[i]`
of that node unchanged and recovers `ux = uy = 0` (and the density `rho`). -/
theorem C8_equilibrium_fixed_point (g : Lattice) (x y : Nat) (rho : ℚ)
    (hx : x < WIDTH) (hy : y < HEIGHT)
    (hw : (getNode g x y).isWall = false)
    (hf : ∀ i, (getNode g x y).f i = w i * rho) :
    (∀ i, (getNode (collisionSweep g) x y).f i = (getNode g x y).f i) ∧
    (getNode (collisionSweep g) x y).ux = 0 ∧
    (getNode (collisionSweep g) x y).uy = 0 ∧
    (getNode (collisionSweep g) x y).rho = rho := by
  unfold getNode at hw hf ⊢
  have hk := idx_lt x y hx hy
  rw [collisionSweep_apply, if_pos hk]
  unfold collideNode
  simp only [hw, Bool.false_eq_true, if_false]
  obtain ⟨h1, h2, h3, h4⟩ := collide_recover_rest (g (idx x y)) rho hf
  exact ⟨fun i => by rw [h1 i, hf i], h3, h4, h2⟩

/-- Witness for C8: node (5,7) of the initial lattice, `rho = 1`. -/
theorem C8_equilibrium_fixed_point_witness :
    (∀ i, (getNode (collisionSweep (init zeroLattice)) (5 : Nat) (7 : Nat)).f i
        = (getNode (init zeroLattice) (5 : Nat) (7 : Nat)).f i) ∧
    (getNode (collisionSweep (init zeroLattice)) (5 : Nat) (7 : Nat)).ux = 0 ∧
    (getNode (collisionSweep (init zeroLattice)) (5 : Nat) (7 : Nat)).uy = 0 ∧
    (getNode (collisionSweep (init zeroLattice)) (5 : Nat) (7 : Nat)).rho = 1 :=
  C8_equilibrium_fixed_point (init zeroLattice) 5 7 1 (by decide) (by decide)
    (by rw [init_isWall zeroLattice 5 7 (by decide) (by decide)]; decide)
    (fun i => by rw [init_f zeroLattice 5 7 (by decide) (by decide)]; simp)

/-- C9, counterexample. After `init()` and one `step()` the fluid node
`(200,75)` of the midline gap has `Σ_i f[i] = 59/60` while its stored `rho` is
`49/50`: the stored density is the one recovered before collision and
streaming, not the sum of the current `f`. -/
theorem C9_counterexample :
    (getNode (step^[1] (init zeroLattice)) (200 : Nat) (75 : Nat)).isWall = false ∧
    density (getNode (step^[1] (init zeroLattice)) (200 : Nat) (75 : Nat)).f = 59 / 60 ∧
    (getNode (step^[1] (init zeroLattice)) (200 : Nat) (75 : Nat)).rho = 49 / 50 ∧
    density (getNode (step^[1] (init zeroLattice)) (200 : Nat) (75 : Nat)).f
      ≠ (getNode (step^[1] (init zeroLattice)) (200 : Nat) (75 : Nat)).rho := by
  have hs : step^[1] (init zeroLattice) = step (init zeroLattice) := rfl
  rw [hs]
  have hW : ∀ x y : Nat, x < 400 → y < 150 → 0 < y → y < 149 → 60 ≤ y → y ≤ 90 →
      (getNode (init zeroLattice) x y).isWall = false := by
    intro x y hx hy h0 h1 h2 h3
    rw [init_isWall zeroLattice x y hx hy]
    simp only [decide_eq_false_iff_not]
    omega
  have hK := hW 200 75 (by decide) (by decide) (by decide) (by decide) (by decide) (by decide)
  have slot := fun (j : Fin 9) (mx my : Nat) (h1 : ((200 : Nat) : Int) - cx j = mx)
      (h2 : ((75 : Nat) : Int) - cy j = my) (h3 : mx < 400) (h4 : 0 < my) (h5 : my < 149)
      (h6 : 60 ≤ my) (h7 : my ≤ 90) =>
    step_init_slot zeroLattice 200 75 (by decide) (by decide) j mx my h1 h2 h3 (by omega) hK
      (hW mx my h3 (by omega) h4 h5 h6 h7)
  have hd : density (getNode (step (init zeroLattice)) (200 : Nat) (75 : Nat)).f = 59 / 60 := by
    unfold density
    rw [sum_dirs,
      slot 0 200 75 (by decide) (by decide) (by decide) (by decide) (by decide) (by decide)
        (by decide),
      slot 1 199 75 (by decide) (by decide) (by decide) (by decide) (by decide) (by decide)
        (by decide),
      slot 2 200 74 (by decide) (by decide) (by decide) (by decide) (by decide) (by decide)
        (by decide),
      slot 3 201 75 (by decide) (by decide) (by decide) (by decide) (by decide) (by decide)
        (by decide),
      slot 4 200 76 (by decide) (by decide) (by decide) (by decide) (by decide) (by decide)
        (by decide),
      slot 5 199 74 (by decide) (by decide) (by decide) (by decide) (by decide) (by decide)
        (by decide),
      slot 6 201 74 (by decide) (by decide) (by decide) (by decide) (by decide) (by decide)
        (by decide),
      slot 7 201 76 (by decide) (by decide) (by decide) (by decide) (by decide) (by decide)
        (by decide),
      slot 8 199 76 (by decide) (by decide) (by decide) (by decide) (by decide) (by decide)
        (by decide)]
    norm_num [w_eq]
  have hr : (getNode (step (init zeroLattice)) (200 : Nat) (75 : Nat)).rho = 49 / 50 := by
    rw [(step_fields (init zeroLattice) 200 75 (by decide) (by decide) hK).1, recover_rho,
      density_rest _ (49 / 50)
        (fun i => by rw [init_f zeroLattice 200 75 (by decide) (by decide)]; norm_num)]
  refine ⟨by rw [step_isWall_coord]; exact hK, hd, hr, ?_⟩
  rw [hd, hr]
  norm_num

/-- C9, amended. Immediately after `init()` every node of the domain, wall or
not, satisfies `Σ_i f[i] = rho`, and its `ux`, `uy` are the first moments of
that `f` divided by `rho`. In the state reached by `n + 1` calls of `step()` from `init()`, every
non-wall node's stored `rho`, `ux`, `uy` are the values recovered from the `f`
the node held at the start of the last step (after `n` steps): `rho` is the sum
of that `f`, and `ux`, `uy` are its first moments divided by that sum, or zero
when the sum is not positive. -/
theorem C9_lagged_consistency (s0 : Lattice) (n : Nat) (x y : Nat)
    (hx : x < WIDTH) (hy : y < HEIGHT) :
    (density (getNode (init s0) x y).f = (getNode (init s0) x y).rho ∧
      (getNode (init s0) x y).ux
        = momentX (getNode (init s0) x y).f / (getNode (init s0) x y).rho ∧
      (getNode (init s0) x y).uy
        = momentY (getNode (init s0) x y).f / (getNode (init s0) x y).rho) ∧
    ((getNode (step^[n] (init s0)) x y).isWall = false →
      ((getNode (step^[n + 1] (init s0)) x y).rho
          = density (getNode (step^[n] (init s0)) x y).f ∧
        (getNode (step^[n + 1] (init s0)) x y).ux
          = (if density (getNode (step^[n] (init s0)) x y).f > 0 then
              momentX (getNode (step^[n] (init s0)) x y).f
                / density (getNode (step^[n] (init s0)) x y).f
            else 0) ∧
        (getNode (step^[n + 1] (init s0)) x y).uy
          = (if density (getNode (step^[n] (init s0)) x y).f > 0 then
              momentY (getNode (step^[n] (init s0)) x y).f
                / density (getNode (step^[n] (init s0)) x y).f
            else 0))) := by
  simp only [WIDTH, HEIGHT] at hx hy
  constructor
  · have hf : ∀ i, (getNode (init s0) x y).f i = w i * (getNode (init s0) x y).rho := by
      intro i; rw [init_f s0 x y hx hy, init_rho s0 x y hx hy]
    have hu : (getNode (init s0) x y).ux = 0 ∧ (getNode (init s0) x y).uy = 0 := by
      rw [init_coord s0 x y hx hy]
      exact ⟨(initNode_fields x y _).2.2.1, (initNode_fields x y _).2.2.2.1⟩
    rw [density_rest _ _ hf, momentX_rest _ _ hf, momentY_rest _ _ hf, hu.1, hu.2]
    simp
  · intro hw
    rw [Function.iterate_succ_apply']
    obtain ⟨h1, h2, h3⟩ := step_fields (step^[n] (init s0)) x y hx hy hw
    rw [h1, h2, h3, recover_rho, recover_ux, recover_uy]
    exact ⟨rfl, rfl, rfl⟩

/-- Witness for C9 (amended): the fluid node (200,75) after `init()` and one
`step()`, and the wall node (200,10) right after `init()`. -/
theorem C9_lagged_consistency_witness :
    (getNode (step^[1] (init zeroLattice)) (200 : Nat) (75 : Nat)).isWall = false ∧
    (getNode (step^[1 + 1] (init zeroLattice)) (200 : Nat) (75 : Nat)).rho
      = density (getNode (step^[1] (init zeroLattice)) (200 : Nat) (75 : Nat)).f ∧
    density (getNode (init zeroLattice) (200 : Nat) (10 : Nat)).f
      = (getNode (init zeroLattice) (200 : Nat) (10 : Nat)).rho :=
  have hw : (getNode (step^[1] (init zeroLattice)) (200 : Nat) (75 : Nat)).isWall = false := by
    unfold getNode
    rw [iterate_step_isWall]
    have := init_isWall zeroLattice 200 75 (by decide) (by decide)
    unfold getNode at this
    rw [this]; decide
  ⟨hw, ((C9_lagged_consistency zeroLattice 1 200 75 (by decide) (by decide)).2 hw).1,
    (C9_lagged_consistency zeroLattice 0 200 10 (by decide) (by decide)).1.1⟩

/-- C10. Initial state: after `init()` from any prior state, for every node
`(x, y)` of the domain, `isWall` holds iff `y = 0` or `y = 149` or
(`x = 200` and (`y < 60` or `y > 90`)), so that away from the top and bottom
rows the midline barrier is open exactly for `0.4*HEIGHT <= y <= 0.6*HEIGHT`;
`rho` is `1.00` if `x < 200` and `0.98` otherwise; `ux = uy = 0`;
`f[i] = w[i] * rho` for every `i`, hence `Σ_i f[i] = rho`. In particular node
`(0,0)` is a wall with `f[i] = w[i] * 1.00` and node `(399,75)` is fluid with
`rho = 0.98` and `f[i] = w[i] * 0.98`. -/
theorem C10_initial_state (s0 : Lattice) (x y : Nat) (hx : x < WIDTH) (hy : y < HEIGHT) :
    (((getNode (init s0) x y).isWall = true ↔
        (y = 0 ∨ y = 149 ∨ (x = 200 ∧ (y < 60 ∨ y > 90)))) ∧
      (x = 200 → 0 < y → y < 149 →
        ((getNode (init s0) x y).isWall = false ↔
          ((HEIGHT : ℚ) * 0.4 ≤ (y : ℚ) ∧ (y : ℚ) ≤ (HEIGHT : ℚ) * 0.6))) ∧
      (getNode (init s0) x y).rho = (if x < 200 then 1.00 else 0.98) ∧
      (getNode (init s0) x y).ux = 0 ∧
      (getNode (init s0) x y).uy = 0 ∧
      (∀ i, (getNode (init s0) x y).f i = w i * (getNode (init s0) x y).rho) ∧
      density (getNode (init s0) x y).f = (getNode (init s0) x y).rho) ∧
    ((getNode (init s0) (0 : Nat) (0 : Nat)).isWall = true ∧
      ∀ i, (getNode (init s0) (0 : Nat) (0 : Nat)).f i = w i * 1.00) ∧
    ((getNode (init s0) (399 : Nat) (75 : Nat)).isWall = false ∧
      (getNode (init s0) (399 : Nat) (75 : Nat)).rho = 0.98 ∧
      ∀ i, (getNode (init s0) (399 : Nat) (75 : Nat)).f i = w i * 0.98) := by
  have hrho := init_rho s0 x y hx hy
  have hf := init_f s0 x y hx hy
  have hwall := init_isWall s0 x y hx hy
  refine ⟨⟨?_, ?_, ?_, ?_, ?_, ?_, ?_⟩, ⟨?_, ?_⟩, ⟨?_, ?_, ?_⟩⟩
  · rw [hwall]; simp
  · intro h200 h0 h149
    rw [hwall]
    have b := barrier_test y
    simp only [gt_iff_lt, ← not_le, ← not_and_or] at b
    have b2 : ((HEIGHT : ℚ) * 0.4 ≤ (y : ℚ) ∧ (y : ℚ) ≤ (HEIGHT : ℚ) * 0.6) ↔
        (60 ≤ y ∧ y ≤ 90) := by
      constructor
      · intro h; by_contra hc; exact (b.mpr hc) h
      · intro h; by_contra hc; exact (b.mp hc) h
    rw [b2]
    simp only [decide_eq_false_iff_not]
    omega
  · rw [hrho]; norm_num
  · rw [init_coord s0 x y hx hy]; exact (initNode_fields x y _).2.2.1
  · rw [init_coord s0 x y hx hy]; exact (initNode_fields x y _).2.2.2.1
  · intro i; rw [hf i, hrho]
  · exact density_rest _ _ (fun i => by rw [hf i, hrho])
  · rw [init_isWall s0 0 0 (by decide) (by decide)]; decide
  · intro i; rw [init_f s0 0 0 (by decide) (by decide)]; norm_num
  · rw [init_isWall s0 399 75 (by decide) (by decide)]; decide
  · rw [init_rho s0 399 75 (by decide) (by decide)]; norm_num
  · intro i; rw [init_f s0 399 75 (by decide) (by decide)]; norm_num

/-- Witness for C10: node (200,75) of the midline gap, from the all-zero prior state. -/
theorem C10_initial_state_witness :
    (200 < WIDTH ∧ 75 < HEIGHT) ∧
    ((getNode (init zeroLattice) (200 : Nat) (75 : Nat)).isWall = true ↔
        ((75 : Nat) = 0 ∨ (75 : Nat) = 149 ∨
          ((200 : Nat) = 200 ∧ ((75 : Nat) < 60 ∨ (75 : Nat) > 90)))) ∧
    (getNode (init zeroLattice) (200 : Nat) (75 : Nat)).rho
      = (if (200 : Nat) < 200 then 1.00 else 0.98) ∧
    density (getNode (init zeroLattice) (200 : Nat) (75 : Nat)).f
      = (getNode (init zeroLattice) (200 : Nat) (75 : Nat)).rho :=
  ⟨⟨by decide, by decide⟩,
    (C10_initial_state zeroLattice 200 75 (by decide) (by decide)).1.1,
    (C10_initial_state zeroLattice 200 75 (by decide) (by decide)).1.2.2.1,
    (C10_initial_state zeroLattice 200 75 (by decide) (by decide)).1.2.2.2.2.2.2⟩

/-- C11, counterexample. `init()` applied to the all-zero lattice and to the
same lattice with `f_new[0]` of node `(0,0)` set to one gives two states that
differ in that slot: the scratch buffer survives a reset. -/
theorem C11_counterexample :
    (init zeroLattice 0).f_new 0 = 0 ∧ (init markedLattice 0).f_new 0 = 1 ∧
    init zeroLattice ≠ init markedLattice := by
  have h1 : (init zeroLattice 0).f_new 0 = 0 :=
    (congrFun (init_f_new zeroLattice 0) 0).trans rfl
  have h2 : (init markedLattice 0).f_new 0 = 1 :=
    (congrFun (init_f_new markedLattice 0) 0).trans rfl
  refine ⟨h1, h2, ?_⟩
  intro h
  rw [h, h2] at h1
  exact absurd h1 (by norm_num)

/-- C11, amended. For every two lattice states `s1` and `s2`, the states after
`init()` agree in `isWall`, `rho`, `ux`, `uy` and `f` of every node of the grid;
the scratch buffer `f_new` is not written by `init()` and keeps the contents it
had before the call. -/
theorem C11_init_overwrites_all_but_scratch (s1 s2 : Lattice) (x y : Nat)
    (hx : x < WIDTH) (hy : y < HEIGHT) :
    (getNode (init s1) x y).isWall = (getNode (init s2) x y).isWall ∧
    (getNode (init s1) x y).rho = (getNode (init s2) x y).rho ∧
    (getNode (init s1) x y).ux = (getNode (init s2) x y).ux ∧
    (getNode (init s1) x y).uy = (getNode (init s2) x y).uy ∧
    (getNode (init s1) x y).f = (getNode (init s2) x y).f ∧
    (getNode (init s1) x y).f_new = (getNode s1 x y).f_new ∧
    (getNode (init s2) x y).f_new = (getNode s2 x y).f_new := by
  simp only [WIDTH, HEIGHT] at hx hy
  rw [init_coord s1 x y hx hy, init_coord s2 x y hx hy]
  obtain ⟨a1, a2, a3, a4, a5, a6⟩ := initNode_fields x y (getNode s1 x y)
  obtain ⟨b1, b2, b3, b4, b5, b6⟩ := initNode_fields x y (getNode s2 x y)
  refine ⟨by rw [a1, b1], by rw [a2, b2], by rw [a3, b3], by rw [a4, b4], ?_, a5, b5⟩
  funext i
  rw [a6 i, b6 i]

/-- Witness for C11 (amended): node (5,7), prior states `zeroLattice` and `markedLattice`. -/
theorem C11_init_overwrites_all_but_scratch_witness :
    (5 < WIDTH ∧ 7 < HEIGHT) ∧
    (getNode (init zeroLattice) (5 : Nat) (7 : Nat)).f
      = (getNode (init markedLattice) (5 : Nat) (7 : Nat)).f ∧
    (getNode (init markedLattice) (5 : Nat) (7 : Nat)).f_new
      = (getNode markedLattice (5 : Nat) (7 : Nat)).f_new :=
  ⟨⟨by decide, by decide⟩,
    (C11_init_overwrites_all_but_scratch zeroLattice markedLattice 5 7
      (by decide) (by decide)).2.2.2.2.1,
    (C11_init_overwrites_all_but_scratch zeroLattice markedLattice 5 7
      (by decide) (by decide)).2.2.2.2.2.2⟩

/-- C12. Reset idempotence: for every lattice state `s`, `init()` applied twice
in a row yields exactly the lattice state that `init()` applied once yields, in
all fields of all nodes, `f_new` included. -/
theorem C12_init_idempotent (s : Lattice) : init (init s) = init s := by
  funext k
  rw [init_apply (init s) k]
  split_ifs with hk
  · rw [init_apply s k, if_pos hk]
    apply initNode_congr
    exact (initNode_fields _ _ _).2.2.2.2.1
  · rfl

/-- C13. Wall invariance: for every lattice state and every node, `step()`
leaves `isWall` unchanged; hence after `init()` followed by any number of
`step()` calls every node's wall flag is the one produced by `init()`. -/
theorem C13_wall_invariance (g s0 : Lattice) (n k : Nat) :
    (step g k).isWall = (g k).isWall ∧
    (step^[n] (init s0) k).isWall = (init s0 k).isWall :=
  ⟨step_isWall g k, iterate_step_isWall (init s0) n k⟩

/-- C14. Wall distributions are frozen: for every lattice state and every node
flagged as a wall, one `step()` leaves that node's `f[0..8]`, `rho`,
`ux` and `uy` equal to their pre-step values; the loop bodies of the collision
sweep and of the commit loop return a wall node unchanged. -/
theorem C14_wall_frozen (g : Lattice) (x y : Nat)
    (hw : (getNode g x y).isWall = true) :
    ((getNode (step g) x y).f = (getNode g x y).f ∧
      (getNode (step g) x y).rho = (getNode g x y).rho ∧
      (getNode (step g) x y).ux = (getNode g x y).ux ∧
      (getNode (step g) x y).uy = (getNode g x y).uy) ∧
    collideNode (getNode g x y) = getNode g x y ∧
    commitNode (getNode g x y) = getNode g x y :=
  ⟨step_wall g (idx x y) hw, collideNode_wall _ hw, commitNode_wall _ hw⟩

/-- Witness for C14: the wall node (200,10) of the initial lattice. -/
theorem C14_wall_frozen_witness :
    (getNode (init zeroLattice) (200 : Nat) (10 : Nat)).isWall = true ∧
    (getNode (step (init zeroLattice)) (200 : Nat) (10 : Nat)).f
      = (getNode (init zeroLattice) (200 : Nat) (10 : Nat)).f :=
  have hw : (getNode (init zeroLattice) (200 : Nat) (10 : Nat)).isWall = true := by
    rw [init_isWall zeroLattice 200 10 (by decide) (by decide)]; decide
  ⟨hw, (C14_wall_frozen (init zeroLattice) 200 10 hw).1.1⟩

/-- C15. Collision conserves per-node mass: for every non-wall node of the grid
and every `f[0..8]`, the equilibrium values `f_eq[i]` computed from the
recovered `rho`, `ux`, `uy` sum to `rho`; the collision sweep replaces `f[i]` by
`f[i] - (1/TAU) * (f[i] - f_eq[i])`, and the sum of the node's `f` after the
relaxation equals the sum before it (exact arithmetic; the branch `rho <= 0`,
where `u = 0`, is included). -/
theorem C15_collision_conserves_mass (g : Lattice) (x y : Nat)
    (hx : x < WIDTH) (hy : y < HEIGHT) (hw : (getNode g x y).isWall = false) :
    (∑ i : Fin 9, fEq (recover (getNode g x y)).rho (recover (getNode g x y)).ux
        (recover (getNode g x y)).uy i = (recover (getNode g x y)).rho) ∧
    (recover (getNode g x y)).rho = density (getNode g x y).f ∧
    (∀ i, (getNode (collisionSweep g) x y).f i
      = (getNode g x y).f i - (1 / TAU) * ((getNode g x y).f i
          - fEq (recover (getNode g x y)).rho (recover (getNode g x y)).ux
              (recover (getNode g x y)).uy i)) ∧
    density (getNode (collisionSweep g) x y).f = density (getNode g x y).f := by
  simp only [WIDTH, HEIGHT] at hx hy
  rw [collisionSweep_fluid g x y hx hy hw]
  refine ⟨sum_fEq _ _ _, recover_rho _, ?_, ?_⟩
  · intro i
    rw [collide_f, (recover_frame _).1]
  · rw [density_collide, recover_rho]

/-- Witness for C15: node (5,7) of the initial lattice. -/
theorem C15_collision_conserves_mass_witness :
    (getNode (init zeroLattice) (5 : Nat) (7 : Nat)).isWall = false ∧
    density (getNode (collisionSweep (init zeroLattice)) (5 : Nat) (7 : Nat)).f
      = density (getNode (init zeroLattice) (5 : Nat) (7 : Nat)).f :=
  have hw : (getNode (init zeroLattice) (5 : Nat) (7 : Nat)).isWall = false := by
    rw [init_isWall zeroLattice 5 7 (by decide) (by decide)]; decide
  ⟨hw, (C15_collision_conserves_mass (init zeroLattice) 5 7 (by decide) (by decide)
    hw).2.2.2⟩

/-- C16. The scratch buffer is never read before it is rewritten: for any two
lattice states that agree on `f`, `isWall`, `rho`, `ux` and `uy` of every node
(so that they differ only in `f_new` values), the states after one `step()`
agree on `f`, `isWall`, `rho`, `ux` and `uy` of every node; and after the
streaming sweep of that step every slot `f_new[j]` of every non-wall node of
the grid holds the same value in both, a value written during the sweep. -/
theorem C16_scratch_never_read (g1 g2 : Lattice)
    (h : ∀ k, (g1 k).f = (g2 k).f ∧ (g1 k).isWall = (g2 k).isWall ∧
      (g1 k).rho = (g2 k).rho ∧ (g1 k).ux = (g2 k).ux ∧ (g1 k).uy = (g2 k).uy) :
    (∀ k, (step g1 k).f = (step g2 k).f ∧ (step g1 k).isWall = (step g2 k).isWall ∧
      (step g1 k).rho = (step g2 k).rho ∧ (step g1 k).ux = (step g2 k).ux ∧
      (step g1 k).uy = (step g2 k).uy) ∧
    (∀ x y : Nat, x < WIDTH → y < HEIGHT → (getNode g1 x y).isWall = false →
      ∀ j, (getNode (stream (collisionSweep g1)) x y).f_new j
        = (getNode (stream (collisionSweep g2)) x y).f_new j) := by
  refine ⟨step_congr h, ?_⟩
  intro x y hx hy hw j
  simp only [WIDTH, HEIGHT] at hx hy
  exact stream_f_new_congr (collisionSweep_congr h) x y hx hy
    (by rw [collisionSweep_isWall_coord]; exact hw) j

/-- Witness for C16: the all-zero lattice and the same lattice with one
scratch slot set to one. -/
theorem C16_scratch_never_read_witness :
    (step markedLattice 0).f = (step zeroLattice 0).f ∧
    (step markedLattice 0).rho = (step zeroLattice 0).rho :=
  ⟨((C16_scratch_never_read markedLattice zeroLattice
      (fun k => setFNew_frame zeroLattice 0 0 1 k)).1 0).1,
    ((C16_scratch_never_read markedLattice zeroLattice
      (fun k => setFNew_frame zeroLattice 0 0 1 k)).1 0).2.2.1⟩

/-- C17. Velocity-set table consistency: the entries of `opposite[Q]` lie in
`0..8`; for every direction `i`, `opposite[opposite[i]] = i`,
`cx[opposite[i]] = -cx[i]`, `cy[opposite[i]] = -cy[i]` and
`w[opposite[i]] = w[i]`; the nine `(cx, cy)` vectors are pairwise distinct and
are exactly the vectors of `{-1,0,1}^2`; `w` is `4/9` for the rest vector, `1/9`
for the four axis vectors and `1/36` for the four diagonal vectors; and
`Σ_i w[i] = 1`. -/
theorem C17_velocity_set_tables :
    ((∀ e ∈ oppositeTab, 0 ≤ e ∧ e < 9) ∧
      ∀ i : Fin 9, oppositeTab.get? i.val = some (((opposite i).val : Nat) : Int)) ∧
    (∀ i : Fin 9, opposite (opposite i) = i ∧ cx (opposite i) = - cx i ∧
      cy (opposite i) = - cy i ∧ w (opposite i) = w i) ∧
    (∀ i j : Fin 9, cx i = cx j → cy i = cy j → i = j) ∧
    (∀ i : Fin 9, (cx i = -1 ∨ cx i = 0 ∨ cx i = 1) ∧ (cy i = -1 ∨ cy i = 0 ∨ cy i = 1)) ∧
    (∀ a b : Int, (a = -1 ∨ a = 0 ∨ a = 1) → (b = -1 ∨ b = 0 ∨ b = 1) →
      ∃ i : Fin 9, cx i = a ∧ cy i = b) ∧
    (∀ i : Fin 9, w i = if cx i = 0 ∧ cy i = 0 then 4 / 9
      else if cx i = 0 ∨ cy i = 0 then 1 / 9 else 1 / 36) ∧
    ∑ i : Fin 9, w i = 1 := by
  refine ⟨⟨by decide, by decide⟩, ?_, by decide, by decide, ?_, ?_, ?_⟩
  · intro i
    refine ⟨opposite_opposite i, cx_opposite i, cy_opposite i, ?_⟩
    fin_cases i <;> simp [w_eq, opposite_eq]
  · intro a b ha hb
    rcases ha with rfl | rfl | rfl <;> rcases hb with rfl | rfl | rfl
    · exact ⟨7, by decide⟩
    · exact ⟨3, by decide⟩
    · exact ⟨6, by decide⟩
    · exact ⟨4, by decide⟩
    · exact ⟨0, by decide⟩
    · exact ⟨2, by decide⟩
    · exact ⟨8, by decide⟩
    · exact ⟨1, by decide⟩
    · exact ⟨5, by decide⟩
  · intro i
    fin_cases i <;> simp [w_eq, cx_eq, cy_eq]
  · rw [sum_dirs]
    simp only [w_eq]
    norm_num

/-- C18. Collision conserves per-node momentum: for every non-wall node of the
grid whose `Σ_i f[i]` is positive, the recovery and collision sweep of `step()`
leaves `Σ_i f[i]*cx[i]` and `Σ_i f[i]*cy[i]` unchanged (exact arithmetic),
because the equilibrium values satisfy `Σ_i f_eq[i]*cx[i] = rho*ux` and
`Σ_i f_eq[i]*cy[i] = rho*uy`. -/
theorem C18_collision_conserves_momentum (g : Lattice) (x y : Nat)
    (hx : x < WIDTH) (hy : y < HEIGHT) (hw : (getNode g x y).isWall = false)
    (hpos : density (getNode g x y).f > 0) :
    (momentX (getNode (collisionSweep g) x y).f = momentX (getNode g x y).f ∧
      momentY (getNode (collisionSweep g) x y).f = momentY (getNode g x y).f) ∧
    (∑ i : Fin 9, fEq (recover (getNode g x y)).rho (recover (getNode g x y)).ux
        (recover (getNode g x y)).uy i * (cx i : ℚ)
      = (recover (getNode g x y)).rho * (recover (getNode g x y)).ux) ∧
    (∑ i : Fin 9, fEq (recover (getNode g x y)).rho (recover (getNode g x y)).ux
        (recover (getNode g x y)).uy i * (cy i : ℚ)
      = (recover (getNode g x y)).rho * (recover (getNode g x y)).uy) := by
  simp only [WIDTH, HEIGHT] at hx hy
  rw [collisionSweep_fluid g x y hx hy hw]
  refine ⟨⟨?_, ?_⟩, sum_fEq_cx _ _ _, sum_fEq_cy _ _ _⟩
  · rw [momentX_collide, recover_rho, recover_ux, if_pos hpos]
    exact mul_div_cancel₀ _ (ne_of_gt hpos)
  · rw [momentY_collide, recover_rho, recover_uy, if_pos hpos]
    exact mul_div_cancel₀ _ (ne_of_gt hpos)

/-- Witness for C18: node (5,7) of the initial lattice, whose density is one. -/
theorem C18_collision_conserves_momentum_witness :
    density (getNode (init zeroLattice) (5 : Nat) (7 : Nat)).f > 0 ∧
    momentX (getNode (collisionSweep (init zeroLattice)) (5 : Nat) (7 : Nat)).f
      = momentX (getNode (init zeroLattice) (5 : Nat) (7 : Nat)).f :=
  have hw : (getNode (init zeroLattice) (5 : Nat) (7 : Nat)).isWall = false := by
    rw [init_isWall zeroLattice 5 7 (by decide) (by decide)]; decide
  have hd : density (getNode (init zeroLattice) (5 : Nat) (7 : Nat)).f = 1 :=
    density_rest _ 1 (fun i => by rw [init_f zeroLattice 5 7 (by decide) (by decide)]; simp)
  have hpos : density (getNode (init zeroLattice) (5 : Nat) (7 : Nat)).f > 0 := by
    rw [hd]; norm_num
  ⟨hpos, (C18_collision_conserves_momentum (init zeroLattice) 5 7 (by decide) (by decide)
    hw hpos).1.1⟩

/-- C19. No out-of-range grid access: for every lattice state, the instrumented
`init()` and `step()` compute the same lattice as `init()` and `step()`, and
every index they access the grid with is `y * WIDTH + x` for some
`0 <= x < WIDTH`, `0 <= y < HEIGHT`, hence lies in `[0, WIDTH*HEIGHT)`; the
store index `idx` is that value. In one
iteration of the streaming direction loop the only indices accessed are the
node's own and, once the bounds test has placed it inside the domain, the
neighbour's. Every loop value `i` and every entry of `opposite[Q]` lies in
`0..8`. -/
theorem C19_no_out_of_range_access (g : Lattice) :
    ((initLog (g, [])).1 = init g ∧ ∀ e ∈ (initLog (g, [])).2, InGrid e) ∧
    ((stepLog g).1 = step g ∧ ∀ e ∈ (stepLog g).2, InGrid e) ∧
    ((∀ e : Int, InGrid e → 0 ≤ e ∧ e < (WIDTH : Int) * (HEIGHT : Int)) ∧
      ∀ x y : Int, idx x y = (flatIndex x y).toNat) ∧
    (∀ (x y : Nat) (p : Lattice × List Int) (i : Fin 9) (e : Int),
      e ∈ (streamDirLog x y p i).2 →
        e ∈ p.2 ∨ e = flatIndex x y ∨
          (inDomain (x + cx i) (y + cy i) ∧ e = flatIndex (x + cx i) (y + cy i))) ∧
    ((∀ i ∈ dirs, i.val < 9 ∧ (opposite i).val < 9) ∧ ∀ e ∈ oppositeTab, 0 ≤ e ∧ e < 9) := by
  refine ⟨⟨initLog_fst _, initLog_inGrid _ ?_⟩, ⟨stepLog_fst g, stepLog_inGrid g⟩,
    ⟨inGrid_bounds, fun _ _ => rfl⟩, streamDirLog_entries, ⟨fun i _ => ⟨i.isLt, (opposite i).isLt⟩, by decide⟩⟩
  intro e he
  exact absurd he (List.not_mem_nil e)

end LBM
